import Mathlib

/-!
Shallow embedding of the Archway Elite Analyzer core
(`src/backend/src/core/advanced_analyzer.py`, `src/backend/src/core/wifi_scanner.py`,
`src/backend/src/routes/wifi_api.py`) together with proofs settling the
frozen claims about its natural-language specification.

Modelling conventions:
* Python dict records for networks are embedded as the `Network` structure.
  Fields that every producer always sets (`bssid`, `ssid`, `encryption`,
  `vendor`) are plain values; the analyzer distinguishes a missing
  `signal_strength` from a present one (`dict.get` with no default), so that
  field is an `Option Int`; likewise `channel` is `Option Nat` (Python
  truthiness treats both `None` and `0` as falsy).  A missing `ssid` and an
  empty `ssid` are indistinguishable everywhere the code reads them, so both
  are embedded as `""`; a missing `encryption` behaves like an unrecognized
  class and is embedded as `"Unknown"`.
* Python `float` arithmetic is embedded as exact rational arithmetic over `ℚ`;
  `round(x, 1)` is embedded as round-half-to-even at one decimal (`pyRound1`).
* Wall-clock timestamps (`datetime.now()`) are environment inputs; analyzer
  findings omit the `detected_at` stamp and the scanner receives the
  timestamp of each frame as data.
-/

/-- An access-point record: the dict written by `WiFiScanner.process_beacon_frame`
and consumed by the analyzers.  The `clients` set is kept as a list. -/
@[ext]
structure Network where
  bssid : String := ""
  ssid : String := ""
  channel : Option Nat := none
  signal_strength : Option Int := none
  encryption : String := "Unknown"
  vendor : String := ""
  first_seen : Nat := 0
  last_seen : Nat := 0
  beacon_count : Nat := 0
  clients : List String := []
  deriving DecidableEq

/-- `charsStartWith needle hay` : the char list `hay` starts with `needle`. -/
def charsStartWith : List Char → List Char → Bool
  | [], _ => true
  | _ :: _, [] => false
  | a :: as, b :: bs => a = b && charsStartWith as bs

/-- `charsContain hay needle` : `needle` occurs contiguously inside `hay`. -/
def charsContain : List Char → List Char → Bool
  | [], needle => needle.isEmpty
  | h :: t, needle => charsStartWith needle (h :: t) || charsContain t needle

/-- Python's substring test `needle in hay`. -/
def strContains (hay needle : String) : Bool :=
  charsContain hay.toList needle.toList

/-- Python's `str.lower()` (the analyzer only ever lowercases ASCII text). -/
def strToLower (s : String) : String :=
  String.mk (s.toList.map Char.toLower)

/-- Python `network.get('signal_strength', -100)`. -/
def getSignal (n : Network) : Int :=
  n.signal_strength.getD (-100)

/-- A finding of `ThreatDetector.detect_rogue_ap` (the `detected_at` wall-clock
stamp is omitted, see the header comment). -/
structure RogueApFinding where
  kind : String
  severity : String
  network : Network
  score : Nat
  reasons : List String
  description : String
  deriving DecidableEq

/-- The score/reason accumulation inside `ThreatDetector.detect_rogue_ap`,
mirroring the four sequential checks of the source. -/
def rogue_eval (network : Network) : Nat × List String :=
  let suspicious_score : Nat := 0
  let reasons : List String := []
  -- Open network in enterprise environment
  let (suspicious_score, reasons) :=
    if network.encryption = "Open" then
      (suspicious_score + 3, reasons ++ ["Open network detected"])
    else (suspicious_score, reasons)
  -- Unusual vendor
  let vendor := strToLower network.vendor
  let (suspicious_score, reasons) :=
    if ["unknown", "private", "random"].any (fun keyword => strContains vendor keyword) then
      (suspicious_score + 2, reasons ++ ["Unusual vendor"])
    else (suspicious_score, reasons)
  -- High signal strength (potentially close/rogue)
  let (suspicious_score, reasons) :=
    if getSignal network > -30 then
      (suspicious_score + 1, reasons ++ ["Unusually strong signal"])
    else (suspicious_score, reasons)
  -- Common honeypot SSIDs
  let ssid := strToLower network.ssid
  let honeypot_names := ["free wifi", "public", "guest", "open", "internet"]
  let (suspicious_score, reasons) :=
    if honeypot_names.any (fun name => strContains ssid name) then
      (suspicious_score + 2, reasons ++ ["Suspicious SSID pattern"])
    else (suspicious_score, reasons)
  (suspicious_score, reasons)

/-- `ThreatDetector.detect_rogue_ap`. -/
def detect_rogue_ap (networks : List Network) : List RogueApFinding :=
  networks.flatMap fun network =>
    let (suspicious_score, reasons) := rogue_eval network
    if 4 ≤ suspicious_score then
      [{ kind := "rogue_ap"
         severity := if suspicious_score < 6 then "medium" else "high"
         network := network
         score := suspicious_score
         reasons := reasons
         description := "Potential rogue AP: " ++ network.ssid }]
    else []

/-- The record of §8: Open encryption, vendor "Unknown Corp", −20 dBm,
SSID "Free WiFi". -/
def rogueExampleOpen : Network :=
  { bssid := "aa:bb:cc:dd:ee:ff", ssid := "Free WiFi", channel := some 6
    signal_strength := some (-20), encryption := "Open", vendor := "Unknown Corp" }

/-- The same record with the Open flag removed (any non-Open encryption). -/
def rogueExampleClosed (enc : String) : Network :=
  { rogueExampleOpen with encryption := enc }

/-- Refinement-side restatement (from the spec's words, §4.5): the vendor
string contains `"unknown"`, `"private"` or `"random"` after lowercasing. -/
def vendorSuspicious (n : Network) : Bool :=
  ["unknown", "private", "random"].any (fun keyword => strContains (strToLower n.vendor) keyword)

/-- Refinement-side restatement (from the spec's words, §4.5): the lowercased
SSID contains a honeypot-style substring. -/
def ssidHoneypot (n : Network) : Bool :=
  ["free wifi", "public", "guest", "open", "internet"].any
    (fun name => strContains (strToLower n.ssid) name)

/-- Refinement-side restatement (from the spec's words, §4.5): the rogue-AP
score as a plain sum of the four weighted signals. -/
def rogueScoreSpec (n : Network) : Nat :=
  (if n.encryption = "Open" then 3 else 0) + (if vendorSuspicious n then 2 else 0)
    + (if getSignal n > -30 then 1 else 0) + (if ssidHoneypot n then 2 else 0)

/-- Refinement-side restatement (from the spec's words, §4.5): the reason
strings of the signals that fired, in the fixed source order. -/
def rogueReasonsSpec (n : Network) : List String :=
  (if n.encryption = "Open" then ["Open network detected"] else [])
    ++ (if vendorSuspicious n then ["Unusual vendor"] else [])
    ++ (if getSignal n > -30 then ["Unusually strong signal"] else [])
    ++ (if ssidHoneypot n then ["Suspicious SSID pattern"] else [])

/-- The sequential accumulation of `detect_rogue_ap` equals the additive
closed form. -/
theorem rogue_eval_eq (n : Network) : rogue_eval n = (rogueScoreSpec n, rogueReasonsSpec n) := by
  simp only [rogue_eval, rogueScoreSpec, rogueReasonsSpec, vendorSuspicious, ssidHoneypot]
  split_ifs <;> simp_all

/-- C2: for every record, the rogue-AP suspicion score is exactly the sum of
+3 for Open encryption, +2 for a suspicious vendor substring, +1 for signal
strictly above −30 dBm and +2 for a honeypot SSID substring; a finding is
emitted for the record iff the score is ≥ 4, with severity "medium" for
4 ≤ score < 6 and "high" for score ≥ 6, carrying exactly the fired reasons in
the fixed order open-encryption, vendor, signal, SSID; records are analyzed
independently. -/
theorem rogue_scoring_spec (n : Network) (nets : List Network) :
    (rogue_eval n).1 = rogueScoreSpec n ∧ (rogue_eval n).2 = rogueReasonsSpec n
    ∧ (detect_rogue_ap [n] ≠ [] ↔ 4 ≤ rogueScoreSpec n)
    ∧ (∀ f ∈ detect_rogue_ap [n],
        f.network = n ∧ f.score = rogueScoreSpec n ∧ f.reasons = rogueReasonsSpec n
          ∧ f.severity = (if rogueScoreSpec n < 6 then "medium" else "high")
          ∧ 4 ≤ rogueScoreSpec n)
    ∧ detect_rogue_ap nets = nets.flatMap (fun m => detect_rogue_ap [m]) := by
  refine ⟨by rw [rogue_eval_eq], by rw [rogue_eval_eq], ?_, ?_, ?_⟩
  · simp only [detect_rogue_ap, List.flatMap_cons, List.flatMap_nil, List.append_nil,
      rogue_eval_eq]
    split_ifs with h <;> simp [h]
  · intro f hf
    simp only [detect_rogue_ap, List.flatMap_cons, List.flatMap_nil, List.append_nil,
      rogue_eval_eq] at hf
    by_cases h : 4 ≤ rogueScoreSpec n
    · rw [if_pos h] at hf
      simp only [List.mem_singleton] at hf
      subst hf
      exact ⟨rfl, rfl, rfl, rfl, h⟩
    · rw [if_neg h] at hf
      simp at hf
  · simp [detect_rogue_ap]

/-- C2 witness: the §8 example record scores ≥ 4 and produces a finding. -/
theorem rogue_scoring_spec_witness :
    4 ≤ rogueScoreSpec rogueExampleOpen ∧ detect_rogue_ap [rogueExampleOpen] ≠ [] :=
  ⟨by decide, ((rogue_scoring_spec rogueExampleOpen []).2.2.1).mpr (by decide)⟩

/-- C1 counterexample: with the Open flag removed (encryption "WPA2", all
other attributes identical) the record scores 5, which is NOT below the
4-point threshold, and a finding IS produced — refuting the claim as
stated. -/
theorem rogue_open_flag_counterexample :
    (rogue_eval (rogueExampleClosed "WPA2")).1 = 5
      ∧ detect_rogue_ap [rogueExampleClosed "WPA2"] ≠ [] := by
  exact ⟨by decide, by decide⟩

/-- C1 (amended): the §8 record with Open encryption, vendor "Unknown Corp",
signal −20 dBm and SSID "Free WiFi" scores 3+2+1+2 = 8 and produces a finding
of severity "high"; with the Open flag removed (any non-Open encryption, all
other attributes identical) it scores 2+1+2 = 5, which still meets the
4-point threshold, and produces a finding of severity "medium". -/
theorem rogue_open_flag_example :
    (rogue_eval rogueExampleOpen).1 = 3 + 2 + 1 + 2
    ∧ (detect_rogue_ap [rogueExampleOpen]).map RogueApFinding.severity = ["high"]
    ∧ ∀ enc : String, enc ≠ "Open" →
        (rogue_eval (rogueExampleClosed enc)).1 = 2 + 1 + 2
        ∧ (detect_rogue_ap [rogueExampleClosed enc]).map RogueApFinding.severity = ["medium"] := by
  refine ⟨by decide, by decide, fun enc h => ?_⟩
  have hscore : rogueScoreSpec (rogueExampleClosed enc) = 5 := by
    show (if enc = "Open" then 3 else 0) + (if vendorSuspicious rogueExampleOpen then 2 else 0)
        + (if getSignal rogueExampleOpen > -30 then 1 else 0)
        + (if ssidHoneypot rogueExampleOpen then 2 else 0) = 5
    rw [if_neg h]
    decide
  have hreasons : rogueReasonsSpec (rogueExampleClosed enc)
      = ["Unusual vendor", "Unusually strong signal", "Suspicious SSID pattern"] := by
    show (if enc = "Open" then ["Open network detected"] else [])
        ++ (if vendorSuspicious rogueExampleOpen then ["Unusual vendor"] else [])
        ++ (if getSignal rogueExampleOpen > -30 then ["Unusually strong signal"] else [])
        ++ (if ssidHoneypot rogueExampleOpen then ["Suspicious SSID pattern"] else []) = _
    rw [if_neg h]
    decide
  constructor
  · rw [rogue_eval_eq, hscore]
  · simp only [detect_rogue_ap, List.flatMap_cons, List.flatMap_nil, List.append_nil,
      rogue_eval_eq, hscore]
    norm_num

/-- C1 witness: the amended claim instantiated at encryption "WPA2". -/
theorem rogue_open_flag_example_witness :
    (detect_rogue_ap [rogueExampleClosed "WPA2"]).map RogueApFinding.severity = ["medium"] :=
  (rogue_open_flag_example.2.2 "WPA2" (by decide)).2

section Grouping

variable {α : Type} {β : Type} [DecidableEq β]

/-- One `defaultdict(list)` append: `groups[k].append(x)`, creating the bucket
at the end of the (insertion-ordered) dict when `k` is unseen. -/
def ginsert : List (β × List α) → β → α → List (β × List α)
  | [], k, x => [(k, [x])]
  | (k', g) :: rest, k, x =>
    if k' = k then (k', g ++ [x]) :: rest else (k', g) :: ginsert rest k x

/-- The Python grouping loops of `detect_evil_twin` and
`analyze_channel_utilization`: iterate the records in order, skip records
whose key is falsy (`none`), append the rest to their key's bucket. -/
def groupByKey (key : α → Option β) (l : List α) : List (β × List α) :=
  l.foldl (fun acc x => match key x with | none => acc | some k => ginsert acc k x) []

theorem ginsert_keys (acc : List (β × List α)) (k : β) (x : α) :
    (ginsert acc k x).map Prod.fst =
      if k ∈ acc.map Prod.fst then acc.map Prod.fst else acc.map Prod.fst ++ [k] := by
  induction acc with
  | nil => simp [ginsert]
  | cons p rest ih =>
    obtain ⟨k', g⟩ := p
    by_cases hk : k' = k
    · subst hk
      simp [ginsert]
    · simp only [ginsert, if_neg hk, List.map_cons, ih]
      by_cases hmem : k ∈ rest.map Prod.fst
      · simp [hmem, Ne.symm hk]
      · simp [hmem, Ne.symm hk]

theorem ginsert_mem (acc : List (β × List α)) (k : β) (x : α)
    (hnd : (acc.map Prod.fst).Nodup) :
    ∀ p ∈ ginsert acc k x,
      (p ∈ acc ∧ p.1 ≠ k)
        ∨ ∃ g₀, p = (k, g₀ ++ [x])
            ∧ ((k, g₀) ∈ acc ∨ (g₀ = [] ∧ k ∉ acc.map Prod.fst)) := by
  induction acc with
  | nil =>
    intro p hp
    simp only [ginsert, List.mem_singleton] at hp
    exact Or.inr ⟨[], by simpa using hp, Or.inr ⟨rfl, by simp⟩⟩
  | cons q rest ih =>
    obtain ⟨k', g⟩ := q
    simp only [List.map_cons, List.nodup_cons] at hnd
    intro p hp
    by_cases hk : k' = k
    · subst hk
      simp only [ginsert, if_true, eq_self_iff_true, List.mem_cons] at hp
      rcases hp with hp | hp
      · exact Or.inr ⟨g, hp, Or.inl (by simp)⟩
      · refine Or.inl ⟨List.mem_cons_of_mem _ hp, ?_⟩
        intro hpk
        exact hnd.1 (hpk ▸ List.mem_map_of_mem Prod.fst hp)
    · simp only [ginsert, if_neg hk, List.mem_cons] at hp
      rcases hp with hp | hp
      · exact Or.inl ⟨by simp [hp], by simp [hp, hk]⟩
      · rcases ih hnd.2 p hp with h | ⟨g₀, hg₀, hin⟩
        · exact Or.inl ⟨List.mem_cons_of_mem _ h.1, h.2⟩
        · refine Or.inr ⟨g₀, hg₀, ?_⟩
          rcases hin with hin | hin
          · exact Or.inl (List.mem_cons_of_mem _ hin)
          · refine Or.inr ⟨hin.1, ?_⟩
            simp only [List.map_cons, List.mem_cons]
            rintro (h | h)
            · exact hk h.symm
            · exact hin.2 h

/-- Invariant carried by the grouping fold: keys are distinct and truthy,
each bucket is exactly the (order-preserving) filter of the processed input
on its key, buckets are nonempty, and every truthy-keyed processed record has
its key present. -/
def GroupInv (key : α → Option β) (l : List α) (acc : List (β × List α)) : Prop :=
  (acc.map Prod.fst).Nodup
    ∧ (∀ p ∈ acc, p.2 = l.filter (fun x => key x = some p.1))
    ∧ (∀ x ∈ l, ∀ k, key x = some k → k ∈ acc.map Prod.fst)
    ∧ (∀ p ∈ acc, p.2 ≠ [])

theorem groupByKey_aux (key : α → Option β) :
    ∀ (l₂ l₁ : List α) (acc : List (β × List α)), GroupInv key l₁ acc →
      GroupInv key (l₁ ++ l₂)
        (l₂.foldl (fun acc x => match key x with | none => acc | some k => ginsert acc k x) acc) := by
  intro l₂
  induction l₂ with
  | nil => intro l₁ acc h; simpa using h
  | cons x t ih =>
    intro l₁ acc h
    have hstep : GroupInv key (l₁ ++ [x])
        (match key x with | none => acc | some k => ginsert acc k x) := by
      rcases hkey : key x with _ | k
      · refine ⟨h.1, ?_, ?_, h.2.2.2⟩
        · intro p hp
          rw [h.2.1 p hp, List.filter_append]
          simp [hkey]
        · intro y hy k hk
          rcases List.mem_append.mp hy with hy | hy
          · exact h.2.2.1 y hy k hk
          · simp only [List.mem_singleton] at hy
            subst hy
            rw [hkey] at hk
            cases hk
      · refine ⟨?_, ?_, ?_, ?_⟩
        · rw [ginsert_keys]
          split_ifs with hmem
          · exact h.1
          · exact List.Nodup.append h.1 (by simp) (by simpa using hmem)
        · intro p hp
          rcases ginsert_mem acc k x h.1 p hp with ⟨hin, hne⟩ | ⟨g₀, hpe, hin⟩
          · rw [h.2.1 p hin, List.filter_append]
            have : key x = some p.1 ↔ False := by
              simp [hkey]
              exact fun hcon => hne hcon.symm
            simp [this]
          · subst hpe
            rcases hin with hin | ⟨hg, hnk⟩
            · have := h.2.1 _ hin
              simp only at this
              rw [this, List.filter_append]
              simp [hkey]
            · subst hg
              have hempty : l₁.filter (fun y => key y = some k) = [] := by
                rw [List.filter_eq_nil_iff]
                intro y hy hky
                exact hnk (h.2.2.1 y hy k (by simpa using hky))
              rw [List.filter_append, hempty]
              simp [hkey]
        · intro y hy k' hk'
          have hsup : acc.map Prod.fst ⊆ (ginsert acc k x).map Prod.fst := by
            rw [ginsert_keys]
            split_ifs
            · exact fun a ha => ha
            · exact fun a ha => List.mem_append_left _ ha
          rcases List.mem_append.mp hy with hy | hy
          · exact hsup (h.2.2.1 y hy k' hk')
          · simp only [List.mem_singleton] at hy
            subst hy
            rw [hkey] at hk'
            cases hk'
            rw [ginsert_keys]
            split_ifs with hmem
            · exact hmem
            · exact List.mem_append_right _ (by simp)
        · intro p hp
          rcases ginsert_mem acc k x h.1 p hp with ⟨hin, _⟩ | ⟨g₀, hpe, _⟩
          · exact h.2.2.2 p hin
          · subst hpe
            simp
    have := ih (l₁ ++ [x]) _ hstep
    simpa using this

theorem groupByKey_spec (key : α → Option β) (l : List α) :
    GroupInv key l (groupByKey key l) := by
  have h := groupByKey_aux key l [] [] ⟨by simp, by simp, by simp, by simp⟩
  simpa [groupByKey] using h

end Grouping

/-- The nested pair loop `for i, net1 in enumerate(lst): for net2 in lst[i+1:]`:
all index-ordered pairs of a list. -/
def allPairs {α : Type} : List α → List (α × α)
  | [] => []
  | x :: xs => xs.map (fun y => (x, y)) ++ allPairs xs

theorem allPairs_filter {α : Type} (p : α → Bool) :
    ∀ l : List α, allPairs (l.filter p) = (allPairs l).filter (fun q => p q.1 && p q.2) := by
  intro l
  induction l with
  | nil => simp [allPairs]
  | cons x xs ih =>
    by_cases hx : p x
    · simp only [List.filter_cons, hx, allPairs, List.filter_append, ih, List.filter_map]
      have hsame : List.filter ((fun q => p q.1 && p q.2) ∘ fun y => (x, y)) xs
          = List.filter p xs := by
        apply List.filter_congr
        intro y _
        simp [Function.comp, hx]
      rw [hsame]
    · simp only [List.filter_cons, hx, allPairs, List.filter_append, ih, List.filter_map]
      have hnil : (List.filter ((fun q => p q.1 && p q.2) ∘ fun y => (x, y)) xs) = [] := by
        rw [List.filter_eq_nil_iff]
        intro y _
        simp [Function.comp, hx]
      simp [hnil, ih]

theorem allPairs_eq_nil_of_short {α : Type} {l : List α} (h : l.length ≤ 1) :
    allPairs l = [] := by
  match l, h with
  | [], _ => rfl
  | [x], _ => rfl

theorem mem_allPairs {α : Type} {q : α × α} : ∀ {l : List α}, q ∈ allPairs l → q.1 ∈ l ∧ q.2 ∈ l := by
  intro l
  induction l with
  | nil => simp [allPairs]
  | cons x xs ih =>
    intro hq
    rcases List.mem_append.mp hq with hq | hq
    · rcases List.mem_map.mp hq with ⟨y, hy, hyq⟩
      subst hyq
      exact ⟨by simp, by simp [hy]⟩
    · rcases ih hq with ⟨h1, h2⟩
      exact ⟨List.mem_cons_of_mem _ h1, List.mem_cons_of_mem _ h2⟩

/-- Occurrence count of the value `c`, written without `BEq` so that it can be
reasoned about through `countP`. -/
def eqCount {β : Type} [DecidableEq β] (c : β) (m : List β) : ℕ :=
  m.countP (fun x => decide (x = c))

theorem eqCount_filter {β : Type} [DecidableEq β] (q : β → Bool) (c : β) (m : List β) :
    eqCount c (m.filter q) = if q c then eqCount c m else 0 := by
  by_cases hc : q c
  · rw [if_pos hc, eqCount, eqCount, List.countP_filter]
    apply List.countP_congr
    intro x _
    constructor
    · intro h
      exact (Bool.and_eq_true _ _ ▸ h).1
    · intro h
      have hx : x = c := of_decide_eq_true h
      subst hx
      simp [h, hc]
  · rw [if_neg hc, eqCount, List.countP_eq_zero]
    intro a ha h
    have hx : a = c := of_decide_eq_true h
    subst hx
    exact hc ((List.mem_filter.mp ha).2)

theorem eqCount_flatMap {α β : Type} [DecidableEq β] (f : α → List β) (c : β) :
    ∀ l : List α, eqCount c (l.flatMap f) = (l.map (fun s => eqCount c (f s))).sum := by
  intro l
  induction l with
  | nil => simp [eqCount]
  | cons x t ih => simp [eqCount, List.flatMap_cons, List.countP_append] at ih ⊢; omega

theorem sum_map_ite_eq_of_nodup {β : Type} [DecidableEq β] {ks : List β} (hnd : ks.Nodup)
    (k : β) (a : ℕ) :
    (ks.map (fun s => if s = k then a else 0)).sum = if k ∈ ks then a else 0 := by
  induction ks with
  | nil => simp
  | cons s t ih =>
    simp only [List.nodup_cons] at hnd
    by_cases hs : s = k
    · subst hs
      have hmap : t.map (fun y => if y = s then a else 0) = t.map (fun _ => 0) :=
        List.map_congr_left (fun y hy => if_neg (fun hc : y = s => hnd.1 (hc ▸ hy)))
      simp [hmap]
    · have hmem : (k ∈ s :: t) ↔ k ∈ t := by
        rw [List.mem_cons]
        constructor
        · rintro (h | h)
          · exact absurd h.symm hs
          · exact h
        · exact Or.inr
      rw [List.map_cons, List.sum_cons, if_neg hs, ih hnd.2, Nat.zero_add,
        if_congr hmem rfl rfl]

/-- Python truthiness of `network.get('ssid')` as the grouping key of
`detect_evil_twin`: empty/missing SSIDs are falsy and are not grouped. -/
def keySsid (n : Network) : Option String :=
  if n.ssid = "" then none else some n.ssid

/-- A finding of `ThreatDetector.detect_evil_twin`; the implicated pair
`networks = [net1, net2]` is kept as two fields (the `detected_at` wall-clock
stamp is omitted, see the header comment). -/
structure EvilTwinFinding where
  kind : String
  severity : String
  ssid : String
  net1 : Network
  net2 : Network
  description : String
  deriving DecidableEq

/-- The pair test inside `detect_evil_twin`: different BSSIDs and absolute
signal-strength difference strictly below 10 dBm. -/
def evilPairCond (q : Network × Network) : Bool :=
  decide (q.1.bssid ≠ q.2.bssid) && decide (|getSignal q.1 - getSignal q.2| < 10)

/-- `ThreatDetector.detect_evil_twin`. -/
def detect_evil_twin (networks : List Network) : List EvilTwinFinding :=
  let ssid_groups := groupByKey keySsid networks
  ssid_groups.flatMap fun p =>
    if 1 < p.2.length then
      ((allPairs p.2).filter evilPairCond).map fun q =>
        { kind := "evil_twin"
          severity := "high"
          ssid := p.1
          net1 := q.1
          net2 := q.2
          description := "Potential evil twin detected for " ++ p.1 }
    else []

/-- Refinement-side restatement (from the spec's words, §4.5): an index pair
qualifies as an evil twin iff the two records share a non-empty SSID, have
different BSSIDs and differ in signal strength by strictly less than
10 dBm. -/
def evilTwinQualified (q : Network × Network) : Bool :=
  decide (q.1.ssid = q.2.ssid) && decide (q.1.ssid ≠ "") && evilPairCond q

/-- Record A of the §8 evil-twin example. -/
def twinA : Network := { bssid := "1", ssid := "X", signal_strength := some (-40) }

/-- Record B of the §8 evil-twin example. -/
def twinB : Network := { bssid := "2", ssid := "X", signal_strength := some (-45) }

/-- Record C of the §8 evil-twin example. -/
def twinC : Network := { bssid := "3", ssid := "Y", signal_strength := some (-40) }

/-- The evil-twin finding implicating `a` and `b` under SSID `s`. -/
def mkTwin (s : String) (a b : Network) : EvilTwinFinding :=
  { kind := "evil_twin", severity := "high", ssid := s, net1 := a, net2 := b
    description := "Potential evil twin detected for " ++ s }

theorem evil_pairs_flatMap (nets : List Network) :
    (detect_evil_twin nets).map (fun f => (f.net1, f.net2))
      = (groupByKey keySsid nets).flatMap
          (fun p => (allPairs nets).filter
            (fun q => evilPairCond q
              && (decide (keySsid q.1 = some p.1) && decide (keySsid q.2 = some p.1)))) := by
  obtain ⟨hnd, hcontents, hcover, hne⟩ := groupByKey_spec keySsid nets
  simp only [detect_evil_twin]
  rw [List.map_flatMap]
  apply List.flatMap_congr
  intro p hp
  rw [apply_ite (List.map (fun f : EvilTwinFinding => (f.net1, f.net2)))]
  simp only [List.map_map, List.map_nil]
  have hcomp : ((fun f : EvilTwinFinding => (f.net1, f.net2)) ∘ fun q : Network × Network =>
      ({ kind := "evil_twin", severity := "high", ssid := p.1, net1 := q.1, net2 := q.2,
         description := "Potential evil twin detected for " ++ p.1 } : EvilTwinFinding)) = id := by
    funext q
    rfl
  rw [hcomp, List.map_id]
  have hpairs : (allPairs p.2).filter evilPairCond
      = (allPairs nets).filter
          (fun q => evilPairCond q
            && (decide (keySsid q.1 = some p.1) && decide (keySsid q.2 = some p.1))) := by
    rw [hcontents p hp, allPairs_filter, List.filter_filter]
  by_cases hlen : 1 < p.2.length
  · rw [if_pos hlen, hpairs]
  · rw [if_neg hlen, ← hpairs]
    have : allPairs p.2 = [] := allPairs_eq_nil_of_short (by omega)
    rw [this, List.filter_nil]

theorem evil_pairs_perm (nets : List Network) :
    ((detect_evil_twin nets).map (fun f => (f.net1, f.net2))).Perm
      ((allPairs nets).filter evilTwinQualified) := by
  obtain ⟨hnd, hcontents, hcover, hne⟩ := groupByKey_spec keySsid nets
  rw [evil_pairs_flatMap, List.perm_iff_count]
  intro c
  show eqCount c ((groupByKey keySsid nets).flatMap
      (fun p => (allPairs nets).filter
        (fun q => evilPairCond q
          && (decide (keySsid q.1 = some p.1) && decide (keySsid q.2 = some p.1)))))
    = eqCount c ((allPairs nets).filter evilTwinQualified)
  rw [eqCount_flatMap, eqCount_filter]
  by_cases hq : evilTwinQualified c = true
  · obtain ⟨⟨hss, hne1⟩, hcond⟩ :
        (c.1.ssid = c.2.ssid ∧ c.1.ssid ≠ "") ∧ evilPairCond c = true := by
      simpa [evilTwinQualified] using hq
    rw [if_pos hq]
    have hterm : (groupByKey keySsid nets).map
        (fun p => eqCount c ((allPairs nets).filter
          (fun q => evilPairCond q
            && (decide (keySsid q.1 = some p.1) && decide (keySsid q.2 = some p.1)))))
        = ((groupByKey keySsid nets).map Prod.fst).map
            (fun s => if s = c.1.ssid then eqCount c (allPairs nets) else 0) := by
      rw [List.map_map]
      apply List.map_congr_left
      intro p _
      rw [eqCount_filter]
      have hiff : ((evilPairCond c
          && (decide (keySsid c.1 = some p.1) && decide (keySsid c.2 = some p.1))) = true)
            ↔ p.1 = c.1.ssid := by
        simp only [Bool.and_eq_true, decide_eq_true_eq, keySsid, if_neg hne1,
          if_neg (hss ▸ hne1), Option.some.injEq]
        constructor
        · rintro ⟨_, h1, _⟩
          exact h1.symm
        · intro hps
          exact ⟨hcond, hps.symm, hss ▸ hps.symm⟩
      rw [if_congr hiff rfl rfl]
      rfl
    rw [hterm, sum_map_ite_eq_of_nodup hnd]
    by_cases hmem : c.1.ssid ∈ (groupByKey keySsid nets).map Prod.fst
    · rw [if_pos hmem]
    · rw [if_neg hmem]
      by_cases hc : c ∈ allPairs nets
      · exact absurd (hcover c.1 (mem_allPairs hc).1 c.1.ssid (by simp [keySsid, hne1])) hmem
      · rw [eqCount, List.countP_eq_zero.mpr]
        intro a ha hdec
        exact hc (of_decide_eq_true hdec ▸ ha)
  · rw [if_neg hq]
    have hz : (groupByKey keySsid nets).map
        (fun p => eqCount c ((allPairs nets).filter
          (fun q => evilPairCond q
            && (decide (keySsid q.1 = some p.1) && decide (keySsid q.2 = some p.1)))))
        = (groupByKey keySsid nets).map (fun _ => 0) := by
      apply List.map_congr_left
      intro p _
      rw [eqCount_filter, if_neg]
      intro hcondall
      apply hq
      simp only [Bool.and_eq_true, decide_eq_true_eq, keySsid] at hcondall
      obtain ⟨hcp, h1, h2⟩ := hcondall
      by_cases he1 : c.1.ssid = ""
      · rw [if_pos he1] at h1
        cases h1
      · rw [if_neg he1] at h1
        by_cases he2 : c.2.ssid = ""
        · rw [if_pos he2] at h2
          cases h2
        · rw [if_neg he2] at h2
          simp only [evilTwinQualified, Bool.and_eq_true, decide_eq_true_eq]
          have e1 : c.1.ssid = p.1 := Option.some.inj h1
          have e2 : c.2.ssid = p.1 := Option.some.inj h2
          exact ⟨⟨e1.trans e2.symm, he1⟩, hcp⟩
    rw [hz]
    simp

/-- C3: for every input list, `detect_evil_twin` emits exactly one finding per
unordered (index-ordered) pair of records sharing a non-empty SSID with
different BSSIDs and an absolute signal difference strictly below 10 dBm
(stated as a permutation against the filtered list of all C(N,2) pairs);
every finding has kind "evil_twin" and severity "high" and implicates two
records with the same non-empty SSID; in particular the §8 three-record input
yields exactly the single finding implicating A and B. -/
theorem evil_twin_exhaustive (nets : List Network) :
    ((detect_evil_twin nets).map (fun f => (f.net1, f.net2))).Perm
        ((allPairs nets).filter evilTwinQualified)
    ∧ (∀ f ∈ detect_evil_twin nets,
        f.kind = "evil_twin" ∧ f.severity = "high"
          ∧ f.net1.ssid = f.ssid ∧ f.net2.ssid = f.ssid ∧ f.ssid ≠ ""
          ∧ f.net1.bssid ≠ f.net2.bssid ∧ |getSignal f.net1 - getSignal f.net2| < 10)
    ∧ detect_evil_twin [twinA, twinB, twinC] = [mkTwin "X" twinA twinB] := by
  obtain ⟨hnd, hcontents, hcover, hneemp⟩ := groupByKey_spec keySsid nets
  refine ⟨evil_pairs_perm nets, ?_, by decide⟩
  intro f hf
  simp only [detect_evil_twin, List.mem_flatMap] at hf
  obtain ⟨p, hp, hfin⟩ := hf
  by_cases hlen : 1 < p.2.length
  · rw [if_pos hlen] at hfin
    obtain ⟨q, hq, hfq⟩ := List.mem_map.mp hfin
    obtain ⟨hqpairs, hqcond⟩ := List.mem_filter.mp hq
    have h1 : q.1 ∈ p.2 := (mem_allPairs hqpairs).1
    have h2 : q.2 ∈ p.2 := (mem_allPairs hqpairs).2
    rw [hcontents p hp] at h1 h2
    have k1 : keySsid q.1 = some p.1 := of_decide_eq_true (List.mem_filter.mp h1).2
    have k2 : keySsid q.2 = some p.1 := of_decide_eq_true (List.mem_filter.mp h2).2
    have hs1 : q.1.ssid = p.1 ∧ q.1.ssid ≠ "" := by
      by_cases h : q.1.ssid = ""
      · rw [keySsid, if_pos h] at k1
        cases k1
      · rw [keySsid, if_neg h] at k1
        exact ⟨Option.some.inj k1, h⟩
    have hs2 : q.2.ssid = p.1 ∧ q.2.ssid ≠ "" := by
      by_cases h : q.2.ssid = ""
      · rw [keySsid, if_pos h] at k2
        cases k2
      · rw [keySsid, if_neg h] at k2
        exact ⟨Option.some.inj k2, h⟩
    have hc : q.1.bssid ≠ q.2.bssid ∧ |getSignal q.1 - getSignal q.2| < 10 := by
      simpa [evilPairCond] using hqcond
    subst hfq
    refine ⟨rfl, rfl, hs1.1, hs2.1, ?_, hc.1, hc.2⟩
    rw [← hs1.1]
    exact hs1.2
  · rw [if_neg hlen] at hfin
    cases hfin

/-- C3 witness: the finding of the concrete §8 run has severity "high" and
implicates two records with distinct BSSIDs. -/
theorem evil_twin_exhaustive_witness :
    (mkTwin "X" twinA twinB).severity = "high"
      ∧ (mkTwin "X" twinA twinB).net1.bssid ≠ (mkTwin "X" twinA twinB).net2.bssid := by
  have h := (evil_twin_exhaustive [twinA, twinB, twinC]).2.1 (mkTwin "X" twinA twinB) (by decide)
  exact ⟨h.2.1, h.2.2.2.2.2.1⟩

/-- C4: running `detect_evil_twin` on the §8 input with A before B and with B
before A produces in both cases exactly one finding, and the two findings
agree on kind, severity and SSID and implicate the same unordered pair of
records. -/
theorem evil_twin_order_swap :
    detect_evil_twin [twinA, twinB, twinC] = [mkTwin "X" twinA twinB]
    ∧ detect_evil_twin [twinB, twinA, twinC] = [mkTwin "X" twinB twinA]
    ∧ (∀ f ∈ detect_evil_twin [twinA, twinB, twinC],
        ∀ g ∈ detect_evil_twin [twinB, twinA, twinC],
          f.kind = g.kind ∧ f.severity = g.severity ∧ f.ssid = g.ssid
            ∧ ((f.net1 = g.net1 ∧ f.net2 = g.net2) ∨ (f.net1 = g.net2 ∧ f.net2 = g.net1))) :=
  ⟨by decide, by decide, by decide⟩

/-- C4 witness: the two concrete findings agree on SSID and implicate the
same unordered pair. -/
theorem evil_twin_order_swap_witness :
    (mkTwin "X" twinA twinB).ssid = (mkTwin "X" twinB twinA).ssid
      ∧ (((mkTwin "X" twinA twinB).net1 = (mkTwin "X" twinB twinA).net1
            ∧ (mkTwin "X" twinA twinB).net2 = (mkTwin "X" twinB twinA).net2)
          ∨ ((mkTwin "X" twinA twinB).net1 = (mkTwin "X" twinB twinA).net2
            ∧ (mkTwin "X" twinA twinB).net2 = (mkTwin "X" twinB twinA).net1)) := by
  have h := evil_twin_order_swap.2.2 (mkTwin "X" twinA twinB) (by decide)
    (mkTwin "X" twinB twinA) (by decide)
  exact ⟨h.2.2.1, h.2.2.2⟩

/-- A beacon frame as seen by `WiFiScanner.process_beacon_frame`: BSSID from
`addr3` (`""` for a missing address, which Python treats as falsy), SSID from
`packet.info` (`""` when absent), optional radiotap signal strength and
channel (`hasattr` probes), and the ingest timestamp passed by the caller. -/
structure Beacon where
  bssid : String := ""
  ssid : String := ""
  signal : Option Int := none
  channel : Option Nat := none
  ts : Nat := 0
  deriving DecidableEq

/-- Python's `str.upper()` (OUI prefixes are ASCII). -/
def strToUpper (s : String) : String :=
  String.mk (s.toList.map Char.toUpper)

/-- First 8 characters of a string, `mac_address[:8]`. -/
def strTake (s : String) (n : Nat) : String :=
  String.mk (s.toList.take n)

/-- `WiFiScanner.load_vendor_database`. -/
def vendor_db : List (String × String) :=
  [("00:11:22", "Cisco Systems"), ("00:1B:63", "Apple Inc."), ("00:26:BB", "Apple Inc."),
   ("28:CF:E9", "Apple Inc."), ("00:50:56", "VMware Inc."), ("08:00:27", "Oracle VirtualBox"),
   ("00:0C:29", "VMware Inc."), ("00:1C:42", "Parallels Inc.")]

/-- `WiFiScanner.get_vendor`. -/
def get_vendor (mac_address : String) : String :=
  if mac_address = "" ∨ mac_address.length < 8 then "Unknown"
  else
    let oui := strToUpper (strTake mac_address 8)
    ((vendor_db.find? (fun p => p.1 = oui)).map Prod.snd).getD "Unknown"

/-- `WiFiScanner.process_beacon_frame`: upsert of the `self.networks` dict
(embedded as a map from BSSID to an optional record). -/
def process_beacon_frame (networks : String → Option Network) (b : Beacon) :
    String → Option Network :=
  if b.bssid = "" then networks
  else
    let ssid := b.ssid
    let signal_strength := b.signal.getD (-100)
    let channel := b.channel.getD 0
    match networks b.bssid with
    | none => fun k =>
        if k = b.bssid then
          some { bssid := b.bssid, ssid := ssid, channel := some channel
                 signal_strength := some signal_strength, encryption := "Open"
                 vendor := get_vendor b.bssid, first_seen := b.ts, last_seen := b.ts
                 beacon_count := 1, clients := [] }
        else networks k
    | some network => fun k =>
        if k = b.bssid then
          some { network with
                 last_seen := b.ts
                 beacon_count := network.beacon_count + 1
                 signal_strength := some signal_strength
                 ssid := if ssid ≠ "" ∧ network.ssid = "" then ssid else network.ssid }
        else networks k

/-- The networks map after ingesting a sequence of beacons into a fresh store. -/
def networksAfter (bs : List Beacon) : String → Option Network :=
  bs.foldl process_beacon_frame (fun _ => none)

/-- The SSID retained by the create-then-backfill policy: the first non-empty
SSID of the beacon sequence, `""` if none. -/
def firstBackfilledSsid : List Beacon → String
  | [] => ""
  | b :: rest => if b.ssid = "" then firstBackfilledSsid rest else b.ssid

/-- Closed form of the record held for BSSID `B` after ingesting the beacon
sequence `bs` (meaningful for non-empty `bs` all carrying BSSID `B`). -/
def specRecord (B : String) (bs : List Beacon) : Network :=
  { bssid := B
    ssid := firstBackfilledSsid bs
    channel := some (bs.head?.elim 0 (fun b => b.channel.getD 0))
    signal_strength := some (bs.getLast?.elim (-100) (fun b => b.signal.getD (-100)))
    encryption := "Open"
    vendor := get_vendor B
    first_seen := bs.head?.elim 0 Beacon.ts
    last_seen := bs.getLast?.elim 0 Beacon.ts
    beacon_count := bs.length
    clients := [] }

theorem head?_append_left {α : Type} {l : List α} (l' : List α) (h : l ≠ []) :
    (l ++ l').head? = l.head? := by
  cases l with
  | nil => exact absurd rfl h
  | cons x t => rfl

theorem firstBackfilledSsid_append (l₁ l₂ : List Beacon) :
    firstBackfilledSsid (l₁ ++ l₂)
      = if firstBackfilledSsid l₁ = "" then firstBackfilledSsid l₂
        else firstBackfilledSsid l₁ := by
  induction l₁ with
  | nil => simp [firstBackfilledSsid]
  | cons b t ih =>
    by_cases hb : b.ssid = ""
    · calc firstBackfilledSsid ((b :: t) ++ l₂) = firstBackfilledSsid (t ++ l₂) := by
            simp [firstBackfilledSsid, hb]
        _ = if firstBackfilledSsid t = "" then firstBackfilledSsid l₂
            else firstBackfilledSsid t := ih
        _ = if firstBackfilledSsid (b :: t) = "" then firstBackfilledSsid l₂
            else firstBackfilledSsid (b :: t) := by simp [firstBackfilledSsid, hb]
    · simp [firstBackfilledSsid, hb]

theorem pbf_create (networks : String → Option Network) (b : Beacon)
    (hb : b.bssid ≠ "") (hnone : networks b.bssid = none) :
    process_beacon_frame networks b b.bssid
      = some { bssid := b.bssid, ssid := b.ssid, channel := some (b.channel.getD 0),
               signal_strength := some (b.signal.getD (-100)), encryption := "Open",
               vendor := get_vendor b.bssid, first_seen := b.ts, last_seen := b.ts,
               beacon_count := 1, clients := [] } := by
  rw [process_beacon_frame, if_neg hb]
  simp only [hnone]
  simp

theorem pbf_update (networks : String → Option Network) (b : Beacon) (r : Network)
    (hb : b.bssid ≠ "") (hsome : networks b.bssid = some r) :
    process_beacon_frame networks b b.bssid
      = some { r with
               last_seen := b.ts
               beacon_count := r.beacon_count + 1
               signal_strength := some (b.signal.getD (-100))
               ssid := if b.ssid ≠ "" ∧ r.ssid = "" then b.ssid else r.ssid } := by
  rw [process_beacon_frame, if_neg hb]
  simp only [hsome]
  simp

theorem networksAfter_eq (B : String) (hB : B ≠ "") :
    ∀ bs : List Beacon, bs ≠ [] → (∀ b ∈ bs, b.bssid = B) →
      networksAfter bs B = some (specRecord B bs) := by
  intro bs
  induction bs using List.reverseRecOn with
  | nil => intro h; exact absurd rfl h
  | append_singleton l b ih =>
    intro _ hall
    have hbB : b.bssid = B := hall b (by simp)
    have hstep : networksAfter (l ++ [b]) B = process_beacon_frame (networksAfter l) b B := by
      rw [networksAfter, List.foldl_append, List.foldl_cons, List.foldl_nil]
      rfl
    rw [hstep]
    by_cases hl : l = []
    · subst hl
      have hnone : networksAfter [] b.bssid = none := rfl
      rw [← hbB, pbf_create _ b (hbB ▸ hB) hnone]
      refine congrArg some (Network.ext rfl ?_ rfl rfl rfl rfl rfl rfl rfl rfl)
      by_cases h : b.ssid = "" <;> simp [specRecord, firstBackfilledSsid, h]
    · have hprev : networksAfter l B = some (specRecord B l) :=
        ih hl (fun x hx => hall x (by simp [hx]))
      rw [← hbB] at hprev
      rw [← hbB, pbf_update _ b _ (hbB ▸ hB) hprev]
      refine congrArg some (Network.ext rfl ?_ ?_ ?_ rfl rfl ?_ ?_ ?_ rfl)
      · show (if b.ssid ≠ "" ∧ (specRecord b.bssid l).ssid = "" then b.ssid
            else (specRecord b.bssid l).ssid) = (specRecord b.bssid (l ++ [b])).ssid
        show (if b.ssid ≠ "" ∧ firstBackfilledSsid l = "" then b.ssid
            else firstBackfilledSsid l) = firstBackfilledSsid (l ++ [b])
        rw [firstBackfilledSsid_append]
        by_cases h1 : firstBackfilledSsid l = ""
        · by_cases h2 : b.ssid = ""
          · simp [h1, h2, firstBackfilledSsid]
          · simp [h1, h2, firstBackfilledSsid]
        · simp [h1]
      · show (specRecord b.bssid l).channel = (specRecord b.bssid (l ++ [b])).channel
        show some (l.head?.elim 0 (fun x => x.channel.getD 0))
          = some ((l ++ [b]).head?.elim 0 (fun x => x.channel.getD 0))
        rw [head?_append_left _ hl]
      · show some (b.signal.getD (-100)) = (specRecord b.bssid (l ++ [b])).signal_strength
        show some (b.signal.getD (-100))
          = some ((l ++ [b]).getLast?.elim (-100) (fun x => x.signal.getD (-100)))
        rw [List.getLast?_concat]
        rfl
      · show (specRecord b.bssid l).first_seen = (specRecord b.bssid (l ++ [b])).first_seen
        show l.head?.elim 0 Beacon.ts = (l ++ [b]).head?.elim 0 Beacon.ts
        rw [head?_append_left _ hl]
      · show b.ts = (specRecord b.bssid (l ++ [b])).last_seen
        show b.ts = (l ++ [b]).getLast?.elim 0 Beacon.ts
        rw [List.getLast?_concat]
        rfl
      · show (specRecord b.bssid l).beacon_count + 1 = (specRecord b.bssid (l ++ [b])).beacon_count
        show l.length + 1 = (l ++ [b]).length
        simp

theorem getLast?_take_eq {α : Type} (bs : List α) (k : Nat) (hk : 0 < k) (hkl : k ≤ bs.length) :
    (bs.take k).getLast? = bs[k - 1]? := by
  rw [List.getLast?_eq_getElem?, List.length_take, List.getElem?_take]
  have hmin : min k bs.length = k := by omega
  rw [hmin, if_pos (by omega)]

theorem head?_take_eq {α : Type} (bs : List α) (k : Nat) (hk : 0 < k) :
    (bs.take k).head? = bs.head? := by
  cases bs with
  | nil => simp
  | cons x t =>
    cases k with
    | zero => omega
    | succ m => rfl

theorem ts_getElem?_mono (bs : List Beacon) (hts : bs.Pairwise (fun a b => a.ts ≤ b.ts))
    (i j : Nat) (hij : i ≤ j) (hj : j < bs.length) :
    (bs[i]?.elim 0 Beacon.ts) ≤ (bs[j]?.elim 0 Beacon.ts) := by
  rcases Nat.eq_or_lt_of_le hij with h | h
  · subst h
    exact le_refl _
  · have hi : i < bs.length := lt_trans h hj
    rw [List.getElem?_eq_getElem hi, List.getElem?_eq_getElem hj]
    simpa using List.pairwise_iff_get.mp hts ⟨i, hi⟩ ⟨j, hj⟩ h

/-- C5: for every sequence of beacons with the same non-empty BSSID and
non-decreasing timestamps, ingesting each prefix leaves in the store a record
whose BSSID is the (unchanged) beacon BSSID, whose beacon count equals the
number of beacons ingested, whose last-seen is at least its first-seen;
last-seen is monotonically non-decreasing across prefixes; and once the SSID
is non-empty it never changes (in particular it never reverts to empty). -/
theorem beacon_upsert_invariants (B : String) (bs : List Beacon)
    (hB : B ≠ "") (hall : ∀ b ∈ bs, b.bssid = B)
    (hts : bs.Pairwise (fun a b => a.ts ≤ b.ts)) :
    (∀ k, 0 < k → k ≤ bs.length →
        networksAfter (bs.take k) B = some (specRecord B (bs.take k))
          ∧ (specRecord B (bs.take k)).bssid = B
          ∧ (specRecord B (bs.take k)).beacon_count = k
          ∧ (specRecord B (bs.take k)).first_seen ≤ (specRecord B (bs.take k)).last_seen)
    ∧ (∀ k l, 0 < k → k ≤ l → l ≤ bs.length →
        (specRecord B (bs.take k)).last_seen ≤ (specRecord B (bs.take l)).last_seen)
    ∧ (∀ k l, 0 < k → k ≤ l → l ≤ bs.length →
        (specRecord B (bs.take k)).ssid ≠ "" →
          (specRecord B (bs.take l)).ssid = (specRecord B (bs.take k)).ssid) := by
  have hlast : ∀ k, 0 < k → k ≤ bs.length →
      (specRecord B (bs.take k)).last_seen = bs[k - 1]?.elim 0 Beacon.ts := by
    intro k hk hkl
    show (bs.take k).getLast?.elim 0 Beacon.ts = _
    rw [getLast?_take_eq bs k hk hkl]
  refine ⟨?_, ?_, ?_⟩
  · intro k hk hkl
    have htk : bs.take k ≠ [] := by
      have hlen : (bs.take k).length = k := by
        rw [List.length_take]
        omega
      intro hcon
      rw [hcon] at hlen
      simp at hlen
      omega
    refine ⟨networksAfter_eq B hB (bs.take k) htk
        (fun x hx => hall x (List.take_subset k bs hx)), rfl, ?_, ?_⟩
    · show (bs.take k).length = k
      simp [List.length_take]
      omega
    · show (bs.take k).head?.elim 0 Beacon.ts ≤ (bs.take k).getLast?.elim 0 Beacon.ts
      rw [head?_take_eq bs k hk, getLast?_take_eq bs k hk hkl, List.head?_eq_getElem?]
      exact ts_getElem?_mono bs hts 0 (k - 1) (by omega) (by omega)
  · intro k l hk hkl hl
    rw [hlast k hk (le_trans hkl hl), hlast l (by omega) hl]
    exact ts_getElem?_mono bs hts (k - 1) (l - 1) (by omega) (by omega)
  · intro k l hk hkl hl hne
    show (specRecord B (bs.take l)).ssid = _
    show firstBackfilledSsid (bs.take l) = _
    have hsplit : l = k + (l - k) := by omega
    have hne' : firstBackfilledSsid (bs.take k) ≠ "" := hne
    rw [hsplit, List.take_add, firstBackfilledSsid_append, if_neg hne']
    rfl

/-- First C5 example beacon: hidden SSID, timestamp 3. -/
def beaconEx1 : Beacon := { bssid := "b1", ts := 3 }

/-- Second C5 example beacon: SSID backfilled to "Net", timestamp 5. -/
def beaconEx2 : Beacon := { bssid := "b1", ssid := "Net", ts := 5, signal := some (-50) }

/-- C5 witness: two concrete beacon upserts of the same BSSID. -/
theorem beacon_upsert_invariants_witness :
    networksAfter ([beaconEx1, beaconEx2].take 2) "b1"
        = some (specRecord "b1" ([beaconEx1, beaconEx2].take 2))
      ∧ (specRecord "b1" ([beaconEx1, beaconEx2].take 1)).last_seen
          ≤ (specRecord "b1" ([beaconEx1, beaconEx2].take 2)).last_seen := by
  have h := beacon_upsert_invariants "b1" [beaconEx1, beaconEx2] (by decide) (by decide)
    (by decide)
  exact ⟨(h.1 2 (by decide) (by decide)).1, h.2.1 1 2 (by decide) (by decide) (by decide)⟩

/-- Python `round(x)` at integer precision: round half to even (banker's
rounding), on exact rationals. -/
def pyRound (q : ℚ) : ℤ :=
  let f := Rat.floor q
  let r := q - (f : ℚ)
  if r < 1/2 then f
  else if 1/2 < r then f + 1
  else if f % 2 = 0 then f else f + 1

/-- Python `round(x, 1)`: one-decimal rounding of the exact rational. -/
def pyRound1 (q : ℚ) : ℚ :=
  ((pyRound (q * 10) : ℤ) : ℚ) / 10

/-- `Rat.floor` agrees with the floor of the `FloorRing` instance on casts. -/
theorem rat_floor_intCast (n : ℤ) : Rat.floor ((n : ℚ)) = n := by
  have h : (⌊(n : ℚ)⌋ : ℤ) = n := Int.floor_intCast n
  exact h

/-- `pyRound` is the identity on integers. -/
theorem pyRound_intCast (n : ℤ) : pyRound (n : ℚ) = n := by
  rw [pyRound]
  have hf : Rat.floor ((n : ℚ)) = n := rat_floor_intCast n
  rw [hf]
  rw [if_pos]
  rw [sub_self]
  norm_num

/-- `round(x, 1)` does not move values that already have one decimal digit. -/
theorem pyRound1_eq_self {q : ℚ} (n : ℤ) (h : q * 10 = (n : ℚ)) : pyRound1 q = q := by
  rw [pyRound1, h, pyRound_intCast, ← h]
  field_simp

/-- `Counter(...)`: multiplicities of the values of a list, in first-encounter
order (Python `collections.Counter` preserves insertion order). -/
def counter (l : List String) : List (String × Nat) :=
  (groupByKey (fun s => some s) l).map (fun p => (p.1, p.2.length))

/-- Python `encryption_counts.get(k, 0)`. -/
def countOf (dist : List (String × Nat)) (k : String) : Nat :=
  ((dist.find? (fun p => p.1 = k)).map Prod.snd).getD 0

/-- The fixed weight table of `analyze_security_posture` (`.get(encryption, 50)`). -/
def enc_weight (encryption : String) : ℚ :=
  if encryption = "WPA3" then 100
  else if encryption = "WPA2" then 80
  else if encryption = "WPA" then 60
  else if encryption = "WEP" then 20
  else if encryption = "Open" then 0
  else 50

/-- `NetworkAnalytics._get_security_level`. -/
def get_security_level (score : ℚ) : String :=
  if score ≥ 90 then "excellent"
  else if score ≥ 70 then "good"
  else if score ≥ 50 then "fair"
  else if score ≥ 30 then "poor"
  else "critical"

/-- The result dict of `analyze_security_posture`.  The source's empty-input
branch returns a dict holding only `total_networks` and `security_score`; in
the embedding the remaining fields then take the listed defaults. -/
structure SecurityPosture where
  total_networks : Nat
  encryption_distribution : List (String × Nat) := []
  security_score : ℚ
  security_level : String := ""
  recommendations : List String := []
  vulnerable_networks : Nat := 0
  deriving DecidableEq

/-- `NetworkAnalytics.analyze_security_posture`.  Note the source computes the
`security_level` from the unrounded score and reports `round(score, 1)` as
`security_score`. -/
def analyze_security_posture (networks : List Network) : SecurityPosture :=
  let total_networks := networks.length
  if total_networks = 0 then
    { total_networks := 0, security_score := 0 }
  else
    let encryption_counts := counter (networks.map Network.encryption)
    let security_score : ℚ := encryption_counts.foldl
      (fun acc p => acc + ((p.2 : ℚ) / (total_networks : ℚ)) * enc_weight p.1) 0
    let recommendations :=
      (if 0 < countOf encryption_counts "Open"
        then ["Secure open networks with WPA2/WPA3"] else [])
      ++ (if 0 < countOf encryption_counts "WEP"
        then ["Upgrade WEP networks to WPA2/WPA3"] else [])
      ++ (if 0 < countOf encryption_counts "WPA"
        then ["Upgrade WPA networks to WPA2/WPA3"] else [])
    { total_networks := total_networks
      encryption_distribution := encryption_counts
      security_score := pyRound1 security_score
      security_level := get_security_level security_score
      recommendations := recommendations
      vulnerable_networks := countOf encryption_counts "Open"
        + countOf encryption_counts "WEP" }

theorem rat_floor_eq_floor (q : ℚ) : Rat.floor q = ⌊q⌋ := rfl

theorem foldl_add_map {α M : Type} [AddCommMonoid M] (f : α → M) :
    ∀ (l : List α) (a : M), l.foldl (fun acc p => acc + f p) a = a + (l.map f).sum := by
  intro l
  induction l with
  | nil => intro a; simp
  | cons x t ih =>
    intro a
    rw [List.foldl_cons, ih, List.map_cons, List.sum_cons, add_assoc]

theorem sum_map_ite_eq_of_nodup_monoid {β M : Type} [DecidableEq β] [AddCommMonoid M]
    {ks : List β} (hnd : ks.Nodup) (k : β) (a : M) :
    (ks.map (fun s => if s = k then a else 0)).sum = if k ∈ ks then a else 0 := by
  induction ks with
  | nil => simp
  | cons s t ih =>
    simp only [List.nodup_cons] at hnd
    by_cases hs : s = k
    · subst hs
      have hmap : t.map (fun y => if y = s then a else 0) = t.map (fun _ => 0) :=
        List.map_congr_left (fun y hy => if_neg (fun hc : y = s => hnd.1 (hc ▸ hy)))
      simp [hmap]
    · have hmem : (k ∈ s :: t) ↔ k ∈ t := by
        rw [List.mem_cons]
        constructor
        · rintro (h | h)
          · exact absurd h.symm hs
          · exact h
        · exact Or.inr
      rw [List.map_cons, List.sum_cons, if_neg hs, ih hnd.2, zero_add,
        if_congr hmem rfl rfl]

theorem sum_map_add_split {β M : Type} [AddCommMonoid M] (f g : β → M) :
    ∀ ks : List β, (ks.map (fun s => f s + g s)).sum = (ks.map f).sum + (ks.map g).sum := by
  intro ks
  induction ks with
  | nil => simp
  | cons a b ihk =>
    simp only [List.map_cons, List.sum_cons, ihk]
    exact add_add_add_comm _ _ _ _

theorem sum_keys_weight {β : Type} [DecidableEq β] (w : β → ℚ) (ks : List β) (hnd : ks.Nodup) :
    ∀ l : List β, (∀ x ∈ l, x ∈ ks) →
      (ks.map (fun s => ((l.countP (fun x => decide (x = s)) : ℕ) : ℚ) * w s)).sum
        = (l.map w).sum := by
  intro l
  induction l with
  | nil =>
    intro _
    have : ks.map (fun s => (((List.countP (fun x => decide (x = s)) ([] : List β) : ℕ)) : ℚ) * w s)
        = ks.map (fun _ => 0) := by
      apply List.map_congr_left
      intro s _
      simp
    simp [this]
  | cons x t ih =>
    intro hcov
    have hstep : ks.map (fun s => ((List.countP (fun y => decide (y = s)) (x :: t) : ℕ) : ℚ) * w s)
        = ks.map (fun s => ((List.countP (fun y => decide (y = s)) t : ℕ) : ℚ) * w s
            + (if s = x then w x else 0)) := by
      apply List.map_congr_left
      intro s _
      rw [List.countP_cons]
      by_cases hx : x = s
      · subst hx
        simp only [decide_eq_true_eq, if_pos rfl]
        push_cast
        ring
      · have hx' : ¬(s = x) := fun hc => hx hc.symm
        simp [hx, hx']
    rw [hstep, sum_map_add_split]
    rw [ih (fun y hy => hcov y (List.mem_cons_of_mem _ hy)),
      sum_map_ite_eq_of_nodup_monoid hnd x (w x), if_pos (hcov x (by simp))]
    simp [add_comm]

theorem find?_assoc_of_mem {β γ : Type} [DecidableEq β] :
    ∀ {m : List (β × γ)}, (m.map Prod.fst).Nodup → ∀ {k : β} {v : γ}, (k, v) ∈ m →
      m.find? (fun q => q.1 = k) = some (k, v) := by
  intro m
  induction m with
  | nil => intro _ k v hv; cases hv
  | cons a rest ih =>
    intro hnd k v hv
    simp only [List.map_cons, List.nodup_cons] at hnd
    by_cases hk : a.1 = k
    · have hhead : a = (k, v) := by
        rcases List.mem_cons.mp hv with h | h
        · exact h.symm
        · exfalso
          apply hnd.1
          rw [hk]
          exact List.mem_map_of_mem Prod.fst h
      rw [List.find?_cons_of_pos _ (by simp [hk]), hhead]
    · have htail : (k, v) ∈ rest := by
        rcases List.mem_cons.mp hv with h | h
        · exact absurd (by rw [← h]) hk
        · exact h
      rw [List.find?_cons_of_neg _ (by simp [hk])]
      exact ih hnd.2 htail

theorem counter_spec (l : List String) :
    ((counter l).map Prod.fst).Nodup
      ∧ (∀ p ∈ counter l, p.2 = l.countP (fun x => decide (x = p.1)))
      ∧ (∀ x ∈ l, x ∈ (counter l).map Prod.fst) := by
  obtain ⟨hnd, hcontents, hcover, _⟩ := groupByKey_spec (fun s : String => some s) l
  have hkeys : (counter l).map Prod.fst = (groupByKey (fun s : String => some s) l).map Prod.fst := by
    rw [counter, List.map_map]
    rfl
  refine ⟨by rw [hkeys]; exact hnd, ?_, ?_⟩
  · intro p hp
    rw [counter] at hp
    obtain ⟨q, hq, hqp⟩ := List.mem_map.mp hp
    subst hqp
    show q.2.length = l.countP (fun x => decide (x = q.1))
    rw [hcontents q hq, List.countP_eq_length_filter]
    congr 1
    apply List.filter_congr
    intro x _
    simp
  · intro x hx
    rw [hkeys]
    exact hcover x hx x (by simp)

theorem countOf_counter (l : List String) (k : String) :
    countOf (counter l) k = l.countP (fun x => decide (x = k)) := by
  obtain ⟨hnd, hcontents, hcover⟩ := counter_spec l
  by_cases hk : k ∈ (counter l).map Prod.fst
  · obtain ⟨p, hp, hpk⟩ := List.mem_map.mp hk
    have hfind : (counter l).find? (fun q => q.1 = k) = some (k, p.2) := by
      apply find?_assoc_of_mem hnd
      have : p = (k, p.2) := by
        rw [← hpk]
      rw [← this]
      exact hp
    rw [countOf, hfind]
    have := hcontents p hp
    rw [hpk] at this
    exact this
  · have hfind : (counter l).find? (fun q => q.1 = k) = none := by
      rw [List.find?_eq_none]
      intro q hq hqk
      exact hk (of_decide_eq_true hqk ▸ List.mem_map_of_mem Prod.fst hq)
    rw [countOf, hfind]
    have : l.countP (fun x => decide (x = k)) = 0 := by
      rw [List.countP_eq_zero]
      intro x hx hxk
      exact hk (of_decide_eq_true hxk ▸ hcover x hx)
    rw [this]
    rfl

/-- The 10-record example of §8: 8 WPA2 networks and 2 Open networks. -/
def securityExampleNets : List Network :=
  List.replicate 8 { encryption := "WPA2" } ++ List.replicate 2 { encryption := "Open" }

/-- A 3-record input on which the reported security score differs from the
exact weighted average: 1 WPA3 + 2 Open. -/
def securityCounterNets : List Network :=
  [{ encryption := "WPA3" }, { encryption := "Open" }, { encryption := "Open" }]

theorem security_fold_eq (nets : List Network) :
    (counter (nets.map Network.encryption)).foldl
        (fun acc p => acc + ((p.2 : ℚ) / (nets.length : ℚ)) * enc_weight p.1) 0
      = (nets.map (fun n => enc_weight n.encryption)).sum / (nets.length : ℚ) := by
  obtain ⟨hnd, hcontents, hcover⟩ := counter_spec (nets.map Network.encryption)
  rw [foldl_add_map (fun p : String × Nat => ((p.2 : ℚ) / (nets.length : ℚ)) * enc_weight p.1),
    zero_add]
  have h1 : (counter (nets.map Network.encryption)).map
      (fun p => ((p.2 : ℚ) / (nets.length : ℚ)) * enc_weight p.1)
      = (counter (nets.map Network.encryption)).map
          (fun p => ((p.2 : ℚ) * enc_weight p.1) * ((nets.length : ℚ))⁻¹) := by
    apply List.map_congr_left
    intro p _
    rw [div_eq_mul_inv]
    ring
  rw [h1, List.sum_map_mul_right]
  have h2 : (counter (nets.map Network.encryption)).map
      (fun p => (p.2 : ℚ) * enc_weight p.1)
      = ((counter (nets.map Network.encryption)).map Prod.fst).map
          (fun s => (((nets.map Network.encryption).countP (fun x => decide (x = s)) : ℕ) : ℚ)
            * enc_weight s) := by
    rw [List.map_map]
    apply List.map_congr_left
    intro p hp
    show (p.2 : ℚ) * enc_weight p.1 = _
    rw [hcontents p hp]
    rfl
  rw [h2, sum_keys_weight _ _ hnd (nets.map Network.encryption) hcover, List.map_map,
    div_eq_mul_inv]
  rfl

/-- C6 counterexample: for 1 WPA3 + 2 Open records the weighted average is
100/3 but the returned `security_score` is the rounded 33.3, so the claimed
equality with the weighted average fails. -/
theorem security_score_rounding_counterexample :
    ((securityCounterNets.map (fun n => enc_weight n.encryption)).sum
        / (securityCounterNets.length : ℚ)) = 100/3
      ∧ (analyze_security_posture securityCounterNets).security_score = 333/10
      ∧ (333/10 : ℚ) ≠ 100/3 := by
  refine ⟨?_, ?_, by norm_num⟩
  · simp [securityCounterNets, enc_weight]
  have hc : counter (securityCounterNets.map Network.encryption)
      = [("WPA3", 1), ("Open", 2)] := by decide
  have hlen : securityCounterNets.length = 3 := by decide
  have hw3 : enc_weight "WPA3" = 100 := by decide
  have hwo : enc_weight "Open" = 0 := by decide
  simp only [analyze_security_posture, hc, hlen, List.foldl_cons, List.foldl_nil, hw3, hwo]
  norm_num [pyRound1, pyRound, rat_floor_eq_floor]

/-- C6 (amended): for every non-empty input, `analyze_security_posture`
computes the weighted average of the per-record encryption weights
(WPA3=100, WPA2=80, WPA=60, WEP=20, Open=0, anything else 50), reports it as
`security_score` rounded to one decimal place, derives `security_level` from
the unrounded average (≥90 excellent, ≥70 good, ≥50 fair, ≥30 poor, else
critical), and reports as `vulnerable_networks` the number of Open records
plus the number of WEP records; for 10 records of which 8 are WPA2 and 2 are
Open the score is 64, the level "fair" and vulnerable_networks 2. -/
theorem security_posture_spec (nets : List Network) (h : nets ≠ []) :
    (analyze_security_posture nets).security_score
        = pyRound1 ((nets.map (fun n => enc_weight n.encryption)).sum / (nets.length : ℚ))
    ∧ (analyze_security_posture nets).security_level
        = get_security_level
            ((nets.map (fun n => enc_weight n.encryption)).sum / (nets.length : ℚ))
    ∧ (analyze_security_posture nets).total_networks = nets.length
    ∧ (analyze_security_posture nets).vulnerable_networks
        = nets.countP (fun n => decide (n.encryption = "Open"))
          + nets.countP (fun n => decide (n.encryption = "WEP"))
    ∧ ((analyze_security_posture securityExampleNets).security_score = 64
        ∧ (analyze_security_posture securityExampleNets).security_level = "fair"
        ∧ (analyze_security_posture securityExampleNets).vulnerable_networks = 2) := by
  have hlen0 : ¬nets.length = 0 := by simpa using h
  have hvuln : ∀ k : String, countOf (counter (nets.map Network.encryption)) k
      = nets.countP (fun n => decide (n.encryption = k)) := by
    intro k
    rw [countOf_counter, List.countP_map]
    rfl
  refine ⟨?_, ?_, ?_, ?_, ?_, ?_, ?_⟩
  · simp only [analyze_security_posture, if_neg hlen0, security_fold_eq]
  · simp only [analyze_security_posture, if_neg hlen0, security_fold_eq]
  · simp only [analyze_security_posture, if_neg hlen0]
  · simp only [analyze_security_posture, if_neg hlen0, hvuln]
  · have hc : counter (securityExampleNets.map Network.encryption)
        = [("WPA2", 8), ("Open", 2)] := by decide
    have hlen : securityExampleNets.length = 10 := by decide
    have hw2 : enc_weight "WPA2" = 80 := by decide
    have hwo : enc_weight "Open" = 0 := by decide
    simp only [analyze_security_posture, hc, hlen, List.foldl_cons, List.foldl_nil, hw2, hwo]
    norm_num [pyRound1, pyRound, rat_floor_eq_floor]
  · have hc : counter (securityExampleNets.map Network.encryption)
        = [("WPA2", 8), ("Open", 2)] := by decide
    have hlen : securityExampleNets.length = 10 := by decide
    have hw2 : enc_weight "WPA2" = 80 := by decide
    have hwo : enc_weight "Open" = 0 := by decide
    simp only [analyze_security_posture, hc, hlen, List.foldl_cons, List.foldl_nil, hw2, hwo]
    norm_num [get_security_level]
  · have hc : counter (securityExampleNets.map Network.encryption)
        = [("WPA2", 8), ("Open", 2)] := by decide
    have hlen : securityExampleNets.length = 10 := by decide
    have hco : countOf [("WPA2", 8), ("Open", 2)] "Open" = 2 := by decide
    have hcw : countOf [("WPA2", 8), ("Open", 2)] "WEP" = 0 := by decide
    simp [analyze_security_posture, hc, hlen, hco, hcw]

/-- C6 witness: the amended claim applied to the non-empty 10-record §8
example. -/
theorem security_posture_spec_witness :
    (analyze_security_posture securityExampleNets).total_networks
      = securityExampleNets.length :=
  (security_posture_spec securityExampleNets (by decide)).2.2.1

/-- The four-bucket distribution dict of `SignalAnalyzer._categorize_signals`. -/
structure SignalDistribution where
  excellent : Nat
  good : Nat
  fair : Nat
  poor : Nat
  deriving DecidableEq

/-- `SignalAnalyzer._categorize_signals` (inputs are absolute dBm values). -/
def categorize_signals (signal_data : List Int) : SignalDistribution :=
  signal_data.foldl
    (fun categories signal =>
      if signal < 50 then { categories with excellent := categories.excellent + 1 }
      else if signal < 70 then { categories with good := categories.good + 1 }
      else if signal < 85 then { categories with fair := categories.fair + 1 }
      else { categories with poor := categories.poor + 1 })
    { excellent := 0, good := 0, fair := 0, poor := 0 }

/-- `statistics.mean` on integers, as an exact rational. -/
def statistics_mean (data : List Int) : ℚ :=
  (data.map (fun s : Int => (s : ℚ))).sum / (data.length : ℚ)

/-- `statistics.median` on integers: sort, take the middle element (odd
length) or the average of the two middle elements (even length). -/
def statistics_median (data : List Int) : ℚ :=
  let sorted := data.mergeSort (fun a b => decide (a ≤ b))
  let n := sorted.length
  if n % 2 = 1 then ((sorted[n / 2]?).getD 0 : ℚ)
  else (((sorted[n / 2 - 1]?).getD 0 : ℚ) + ((sorted[n / 2]?).getD 0 : ℚ)) / 2

/-- `SignalAnalyzer._assess_signal_quality`. -/
def assess_signal_quality (signal_data : List Int) : String :=
  let avg_signal := statistics_mean signal_data
  if avg_signal < 50 then "excellent"
  else if avg_signal < 70 then "good"
  else if avg_signal < 85 then "fair"
  else "poor"

/-- The sample variance `Σ (x - mean)² / (n - 1)` underlying
`statistics.stdev`. -/
def sample_variance (data : List Int) : ℚ :=
  (data.map (fun x => ((x : ℚ) - statistics_mean data)^2)).sum / ((data.length : ℚ) - 1)

/-- The analysis dict of `SignalAnalyzer.analyze_signal_patterns`.  The source
stores `round(sqrt(v), 1)` under `standard_deviation`, where `v` is the sample
variance; the square root of a rational is irrational in general, so the
embedding records `v` itself — the claims concern only the field's
presence. -/
structure SignalAnalysis where
  average_signal : ℚ
  median_signal : ℚ
  range_min : Int
  range_max : Int
  signal_distribution : SignalDistribution
  quality_assessment : String
  standard_deviation_of_variance : Option ℚ
  deriving DecidableEq

/-- `SignalAnalyzer.analyze_signal_patterns`: the empty-input branch returns
the explicit error dict `{'error': 'No signal data available'}`. -/
def analyze_signal_patterns (networks : List Network) : Except String SignalAnalysis :=
  let signal_data := networks.filterMap
    (fun network => network.signal_strength.map (fun signal => |signal|))
  if signal_data.isEmpty then
    Except.error "No signal data available"
  else
    let analysis : SignalAnalysis :=
      { average_signal := pyRound1 (statistics_mean signal_data)
        median_signal := pyRound1 (statistics_median signal_data)
        range_min := (signal_data.min?).getD 0
        range_max := (signal_data.max?).getD 0
        signal_distribution := categorize_signals signal_data
        quality_assessment := assess_signal_quality signal_data
        standard_deviation_of_variance := none }
    if 1 < signal_data.length then
      Except.ok { analysis with
        standard_deviation_of_variance := some (sample_variance signal_data) }
    else
      Except.ok analysis

/-- The `signal_data` list that `analyze_signal_patterns` builds: absolute
values of the present signal strengths, in input order. -/
def signalData (networks : List Network) : List Int :=
  networks.filterMap (fun network => network.signal_strength.map (fun signal => |signal|))

theorem int_min?_spec {xs : List Int} {a : Int} (h : xs.min? = some a) :
    a ∈ xs ∧ ∀ b ∈ xs, a ≤ b := by
  haveI : Std.Antisymm (fun x y : Int => x ≤ y) := ⟨fun h1 h2 => le_antisymm h1 h2⟩
  rw [List.min?_eq_some_iff (le_refl) (min_choice) (fun a b c => le_min_iff)] at h
  exact h

theorem int_max?_spec {xs : List Int} {a : Int} (h : xs.max? = some a) :
    a ∈ xs ∧ ∀ b ∈ xs, b ≤ a := by
  haveI : Std.Antisymm (fun x y : Int => x ≤ y) := ⟨fun h1 h2 => le_antisymm h1 h2⟩
  rw [List.max?_eq_some_iff (le_refl) (max_choice) (fun a b c => max_le_iff)] at h
  exact h

/-- Bucket predicate "excellent": absolute signal strictly below 50. -/
def sigExcellentP (x : Int) : Bool := decide (x < 50)

/-- Bucket predicate "good": absolute signal in [50, 70). -/
def sigGoodP (x : Int) : Bool := !decide (x < 50) && decide (x < 70)

/-- Bucket predicate "fair": absolute signal in [70, 85). -/
def sigFairP (x : Int) : Bool := !decide (x < 50) && (!decide (x < 70) && decide (x < 85))

/-- Bucket predicate "poor": absolute signal at least 85. -/
def sigPoorP (x : Int) : Bool := !decide (x < 50) && (!decide (x < 70) && !decide (x < 85))

theorem categorize_signals_aux :
    ∀ (data : List Int) (acc : SignalDistribution),
      data.foldl
        (fun categories signal =>
          if signal < 50 then { categories with excellent := categories.excellent + 1 }
          else if signal < 70 then { categories with good := categories.good + 1 }
          else if signal < 85 then { categories with fair := categories.fair + 1 }
          else { categories with poor := categories.poor + 1 })
        acc
      = { excellent := acc.excellent + data.countP sigExcellentP
          good := acc.good + data.countP sigGoodP
          fair := acc.fair + data.countP sigFairP
          poor := acc.poor + data.countP sigPoorP } := by
  intro data
  induction data with
  | nil => intro acc; simp
  | cons x t ih =>
    intro acc
    rw [List.foldl_cons, ih]
    cases hb1 : decide (x < 50) <;> cases hb2 : decide (x < 70) <;> cases hb3 : decide (x < 85) <;>
      simp only [decide_eq_true_eq, decide_eq_false_iff_not] at hb1 hb2 hb3 <;>
      simp [List.countP_cons, sigExcellentP, sigGoodP, sigFairP, sigPoorP, hb1, hb2, hb3] <;>
      omega

theorem categorize_signals_eq (data : List Int) :
    categorize_signals data
      = { excellent := data.countP sigExcellentP
          good := data.countP sigGoodP
          fair := data.countP sigFairP
          poor := data.countP sigPoorP } := by
  rw [categorize_signals, categorize_signals_aux]
  simp

theorem countP_partition_four (data : List Int) :
    data.countP sigExcellentP + data.countP sigGoodP + data.countP sigFairP
      + data.countP sigPoorP = data.length := by
  induction data with
  | nil => rfl
  | cons x t ih =>
    simp only [List.countP_cons, List.length_cons]
    cases hb1 : decide (x < 50) <;> cases hb2 : decide (x < 70) <;> cases hb3 : decide (x < 85) <;>
      simp only [decide_eq_true_eq, decide_eq_false_iff_not] at hb1 hb2 hb3 <;>
      simp [sigExcellentP, sigGoodP, sigFairP, sigPoorP, hb1, hb2, hb3] <;> omega

theorem statistics_median_mul_ten (data : List Int) :
    ∃ n : ℤ, statistics_median data * 10 = (n : ℚ) := by
  rw [statistics_median]
  by_cases h : (data.mergeSort (fun a b => decide (a ≤ b))).length % 2 = 1
  · rw [if_pos h]
    refine ⟨((data.mergeSort (fun a b => decide (a ≤ b)))[
      (data.mergeSort (fun a b => decide (a ≤ b))).length / 2]?.getD 0) * 10, ?_⟩
    push_cast
    ring
  · rw [if_neg h]
    refine ⟨((data.mergeSort (fun a b => decide (a ≤ b)))[
        (data.mergeSort (fun a b => decide (a ≤ b))).length / 2 - 1]?.getD 0
      + (data.mergeSort (fun a b => decide (a ≤ b)))[
        (data.mergeSort (fun a b => decide (a ≤ b))).length / 2]?.getD 0) * 5, ?_⟩
    push_cast
    ring

/-- Three records whose absolute signals are [1, 1, 2]: the exact mean 4/3 is
not representable at one decimal, so the reported mean is rounded. -/
def signalCounterNets : List Network :=
  [{ signal_strength := some (-1) }, { signal_strength := some (-1) },
   { signal_strength := some (-2) }]

/-- C8 counterexample: for signals [-1, -1, -2] the mean of the absolute
values is 4/3, but the returned `average_signal` is the rounded 1.3 — so the
claim that the returned mean equals the mean of the absolute values fails. -/
theorem signal_mean_rounding_counterexample :
    (analyze_signal_patterns signalCounterNets).toOption.map SignalAnalysis.average_signal
        = some (13/10)
      ∧ statistics_mean (signalData signalCounterNets) = 4/3
      ∧ ((13 : ℚ)/10) ≠ 4/3 := by
  have hd : signalData signalCounterNets = [1, 1, 2] := by decide
  have hd' : signalCounterNets.filterMap
      (fun network => network.signal_strength.map (fun signal => |signal|)) = [1, 1, 2] := hd
  refine ⟨?_, ?_, by norm_num⟩
  · have hmean : statistics_mean [1, 1, 2] = 4/3 := by
      norm_num [statistics_mean]
    have hround : pyRound1 (4/3) = 13/10 := by
      norm_num [pyRound1, pyRound, rat_floor_eq_floor]
    simp only [analyze_signal_patterns, hd', hmean, hround]
    rfl
  · rw [hd]
    norm_num [statistics_mean]

/-- C8 (amended): `analyze_signal_patterns` is a total function that returns
the explicit error value "No signal data available" exactly when no record
carries a signal strength (in particular for the empty list, with no division
performed); otherwise it returns the mean of the absolute signal values
ROUNDED TO ONE DECIMAL, the exact median, the true minimum and maximum, a
4-bucket distribution (<50 excellent, <70 good, <85 fair, ≥85 poor) counting
every sample, and a standard-deviation field that is present iff there are at
least 2 signal samples. -/
theorem signal_patterns_spec (nets : List Network) :
    (signalData nets = [] →
        analyze_signal_patterns nets = Except.error "No signal data available")
    ∧ (∀ e, analyze_signal_patterns nets = Except.error e → signalData nets = [])
    ∧ (∀ a : SignalAnalysis, analyze_signal_patterns nets = Except.ok a →
        a.average_signal = pyRound1 (statistics_mean (signalData nets))
        ∧ a.median_signal = statistics_median (signalData nets)
        ∧ (a.range_min ∈ signalData nets ∧ ∀ x ∈ signalData nets, a.range_min ≤ x)
        ∧ (a.range_max ∈ signalData nets ∧ ∀ x ∈ signalData nets, x ≤ a.range_max)
        ∧ a.signal_distribution
            = { excellent := (signalData nets).countP sigExcellentP
                good := (signalData nets).countP sigGoodP
                fair := (signalData nets).countP sigFairP
                poor := (signalData nets).countP sigPoorP }
        ∧ a.signal_distribution.excellent + a.signal_distribution.good
            + a.signal_distribution.fair + a.signal_distribution.poor
            = (signalData nets).length
        ∧ (a.standard_deviation_of_variance.isSome ↔ 1 < (signalData nets).length)) := by
  by_cases hemp : signalData nets = []
  · have herr : analyze_signal_patterns nets = Except.error "No signal data available" := by
      simp only [analyze_signal_patterns]
      rw [show (nets.filterMap
          (fun network => network.signal_strength.map (fun signal => |signal|)))
        = signalData nets from rfl, hemp]
      rfl
    refine ⟨fun _ => herr, fun e _ => hemp, ?_⟩
    intro a ha
    rw [herr] at ha
    cases ha
  · have hne : (signalData nets).isEmpty = false := by
      cases hsd : signalData nets with
      | nil => exact absurd hsd hemp
      | cons x t => rfl
    have hmin : ∃ m, (signalData nets).min? = some m := by
      cases hm : (signalData nets).min? with
      | none =>
        rw [List.min?_eq_none_iff] at hm
        exact absurd hm hemp
      | some m => exact ⟨m, rfl⟩
    have hmax : ∃ m, (signalData nets).max? = some m := by
      cases hm : (signalData nets).max? with
      | none =>
        rw [List.max?_eq_none_iff] at hm
        exact absurd hm hemp
      | some m => exact ⟨m, rfl⟩
    obtain ⟨mn, hmn⟩ := hmin
    obtain ⟨mx, hmx⟩ := hmax
    have hok : ∀ a : SignalAnalysis, analyze_signal_patterns nets = Except.ok a →
        a = { average_signal := pyRound1 (statistics_mean (signalData nets))
              median_signal := pyRound1 (statistics_median (signalData nets))
              range_min := mn
              range_max := mx
              signal_distribution := categorize_signals (signalData nets)
              quality_assessment := assess_signal_quality (signalData nets)
              standard_deviation_of_variance :=
                if 1 < (signalData nets).length then some (sample_variance (signalData nets))
                else none } := by
      intro a ha
      simp only [analyze_signal_patterns] at ha
      rw [show (nets.filterMap
          (fun network => network.signal_strength.map (fun signal => |signal|)))
        = signalData nets from rfl, hne] at ha
      simp only [Bool.false_eq_true, if_false, hmn, hmx, Option.getD_some] at ha
      by_cases hlen : 1 < (signalData nets).length
      · rw [if_pos hlen] at ha
        rw [if_pos hlen]
        cases ha
        rfl
      · rw [if_neg hlen] at ha
        rw [if_neg hlen]
        cases ha
        rfl
    refine ⟨fun h => absurd h hemp, ?_, ?_⟩
    · intro e he
      exfalso
      cases hres : analyze_signal_patterns nets with
      | error e' =>
        -- the non-empty branch always returns ok
        simp only [analyze_signal_patterns] at hres
        rw [show (nets.filterMap
            (fun network => network.signal_strength.map (fun signal => |signal|)))
          = signalData nets from rfl, hne] at hres
        simp only [Bool.false_eq_true, if_false] at hres
        by_cases hlen : 1 < (signalData nets).length
        · rw [if_pos hlen] at hres
          cases hres
        · rw [if_neg hlen] at hres
          cases hres
      | ok a =>
        rw [hres] at he
        cases he
    · intro a ha
      have hav := hok a ha
      subst hav
      obtain ⟨hmn1, hmn2⟩ := int_min?_spec hmn
      obtain ⟨hmx1, hmx2⟩ := int_max?_spec hmx
      obtain ⟨nmed, hnmed⟩ := statistics_median_mul_ten (signalData nets)
      refine ⟨rfl, ?_, ⟨hmn1, hmn2⟩, ⟨hmx1, hmx2⟩, ?_, ?_, ?_⟩
      · show pyRound1 (statistics_median (signalData nets)) = _
        exact pyRound1_eq_self nmed hnmed
      · show categorize_signals (signalData nets) = _
        exact categorize_signals_eq _
      · show (categorize_signals (signalData nets)).excellent
            + (categorize_signals (signalData nets)).good
            + (categorize_signals (signalData nets)).fair
            + (categorize_signals (signalData nets)).poor = _
        rw [categorize_signals_eq]
        exact countP_partition_four _
      · show (if 1 < (signalData nets).length
              then some (sample_variance (signalData nets)) else none).isSome
            ↔ 1 < (signalData nets).length
        by_cases hlen : 1 < (signalData nets).length
        · simp [hlen]
        · simp [hlen]

/-- C8 witness: the empty snapshot yields the explicit "no data" result. -/
theorem signal_patterns_spec_witness :
    analyze_signal_patterns [] = Except.error "No signal data available" :=
  (signal_patterns_spec []).1 rfl

/-- Python truthiness of `network.get('channel')` as the grouping key of
`analyze_channel_utilization`: a missing channel and channel 0 are both falsy
and are not grouped. -/
def keyChannel (n : Network) : Option Nat :=
  match n.channel with
  | none => none
  | some c => if c = 0 then none else some c

/-- A value of the `interference_map` dict. -/
structure InterferenceEntry where
  network_count : Nat
  total_signal_power : Int
  interference_score : ℚ
  deriving DecidableEq

/-- An entry of the `optimal_channels` list. -/
structure OptimalChannel where
  channel : Nat
  interference_score : ℚ
  network_count : Nat
  recommendation : String
  deriving DecidableEq

/-- The result dict of `analyze_channel_utilization`. -/
structure ChannelAnalysis where
  utilization : List (Nat × Nat)
  interference_map : List (Nat × InterferenceEntry)
  optimal_channels : List OptimalChannel
  congestion_level : String
  deriving DecidableEq

/-- `NetworkAnalytics._find_optimal_channels`: stable ascending sort by
interference score (Python `sorted`), keep the first 5, tag each. -/
def find_optimal_channels (interference_map : List (Nat × InterferenceEntry)) :
    List OptimalChannel :=
  let sorted_channels := interference_map.mergeSort
    (fun a b => decide (a.2.interference_score ≤ b.2.interference_score))
  (sorted_channels.take 5).map fun p : Nat × InterferenceEntry =>
    { channel := p.1,
      interference_score := p.2.interference_score,
      network_count := p.2.network_count,
      recommendation :=
        if p.2.interference_score < 20 then "excellent"
        else if p.2.interference_score < 50 then "good"
        else "poor" }

/-- `NetworkAnalytics._calculate_congestion_level`
(`statistics.mean` of the per-channel counts). -/
def calculate_congestion_level (utilization : List (Nat × Nat)) : String :=
  if utilization = [] then "none"
  else
    let avg_networks_per_channel : ℚ :=
      ((utilization.map Prod.snd).map (fun c : Nat => (c : ℚ))).sum / (utilization.length : ℚ)
    if avg_networks_per_channel < 2 then "low"
    else if avg_networks_per_channel < 5 then "moderate"
    else if avg_networks_per_channel < 10 then "high"
    else "severe"

/-- `NetworkAnalytics.analyze_channel_utilization`. -/
def analyze_channel_utilization (networks : List Network) : ChannelAnalysis :=
  let channel_data := groupByKey keyChannel networks
  let utilization := channel_data.map (fun p => (p.1, p.2.length))
  let interference_map := channel_data.map (fun p =>
    let total_signal : Int := (p.2.map (fun net => |getSignal net|)).sum
    (p.1, { network_count := p.2.length
            total_signal_power := total_signal
            interference_score :=
              min 100 (((p.2.length * 10 : Nat) : ℚ) + (total_signal : ℚ) / 10) }))
  { utilization := utilization
    interference_map := interference_map
    optimal_channels := find_optimal_channels interference_map
    congestion_level := calculate_congestion_level utilization }

/-- The §8 congestion example with one network on each of channels 1, 6, 11. -/
def congestionNets1 : List Network :=
  [{ channel := some 1 }, { channel := some 6 }, { channel := some 11 }]

/-- The §8 congestion example with six networks on each of channels 1, 6, 11. -/
def congestionNets2 : List Network :=
  List.replicate 6 { channel := some 1 } ++ List.replicate 6 { channel := some 6 }
    ++ List.replicate 6 { channel := some 11 }

/-- The Bool comparator used by `_find_optimal_channels`. -/
def scoreLe (a b : Nat × InterferenceEntry) : Bool :=
  decide (a.2.interference_score ≤ b.2.interference_score)

theorem scoreLe_trans : ∀ a b c : Nat × InterferenceEntry,
    scoreLe a b = true → scoreLe b c = true → scoreLe a c = true := by
  intro a b c hab hbc
  simp only [scoreLe, decide_eq_true_eq] at *
  exact le_trans hab hbc

theorem scoreLe_total : ∀ a b : Nat × InterferenceEntry,
    (scoreLe a b || scoreLe b a) = true := by
  intro a b
  simp only [scoreLe, Bool.or_eq_true, decide_eq_true_eq]
  exact le_total _ _

theorem optimal_channels_sorted (m : List (Nat × InterferenceEntry)) :
    ((find_optimal_channels m).map OptimalChannel.interference_score).Pairwise (· ≤ ·) := by
  have hsorted : (m.mergeSort scoreLe).Pairwise (fun a b => scoreLe a b = true) :=
    List.sorted_mergeSort scoreLe_trans scoreLe_total m
  have htake : ((m.mergeSort scoreLe).take 5).Pairwise (fun a b => scoreLe a b = true) :=
    hsorted.sublist (List.take_sublist 5 _)
  have hsl : (fun a b : Nat × InterferenceEntry =>
      decide (a.2.interference_score ≤ b.2.interference_score)) = scoreLe := rfl
  rw [find_optimal_channels, hsl, List.pairwise_map, List.pairwise_map]
  apply List.Pairwise.imp _ htake
  intro a b hab
  simpa [scoreLe] using hab

theorem optimal_channels_le_rest (m : List (Nat × InterferenceEntry)) :
    ∀ o ∈ find_optimal_channels m, ∀ q ∈ m,
      q.1 ∉ (find_optimal_channels m).map OptimalChannel.channel →
        o.interference_score ≤ q.2.interference_score := by
  intro o ho q hq hqn
  obtain ⟨p, hp, hpo⟩ := List.mem_map.mp ho
  have hqsorted : q ∈ m.mergeSort scoreLe := ((m.mergeSort_perm scoreLe).symm.mem_iff).mp hq
  have hqsplit : q ∈ (m.mergeSort scoreLe).take 5 ∨ q ∈ (m.mergeSort scoreLe).drop 5 := by
    rcases List.mem_append.mp
        (by rw [List.take_append_drop 5 (m.mergeSort scoreLe)]; exact hqsorted) with h | h
    · exact Or.inl h
    · exact Or.inr h
  rcases hqsplit with hqin | hqdrop
  · exfalso
    apply hqn
    have hsl : (fun a b : Nat × InterferenceEntry =>
        decide (a.2.interference_score ≤ b.2.interference_score)) = scoreLe := rfl
    rw [find_optimal_channels, hsl, List.map_map]
    exact List.mem_map.mpr ⟨q, hqin, rfl⟩
  · have hsorted : (m.mergeSort scoreLe).Pairwise (fun a b => scoreLe a b = true) :=
      List.sorted_mergeSort scoreLe_trans scoreLe_total m
    have hcross : ∀ x ∈ (m.mergeSort scoreLe).take 5, ∀ y ∈ (m.mergeSort scoreLe).drop 5,
        scoreLe x y = true := by
      have := hsorted
      rw [← List.take_append_drop 5 (m.mergeSort scoreLe), List.pairwise_append] at this
      exact this.2.2
    have hle := hcross p hp q hqdrop
    rw [← hpo]
    simpa [scoreLe] using hle

/-- C7: `analyze_channel_utilization` groups records by truthy channel;
each utilization entry carries the exact number of records on its channel and
each channel with a record appears; each interference entry carries the count,
the summed absolute signal power and the score min(100, count*10 + power/10);
`optimal_channels` lists exactly min(5, number of occupied channels) channels
(the interference map has one entry per occupied channel: its length equals
the utilization length, its keys cover every occupied channel, and the
duplicate-free utilization keys make that the number of occupied channels),
with scores in ascending order, each drawn from the interference map and
tagged excellent (<20), good (<50) or poor, and no unselected channel has a
lower score than a selected one;
the congestion level is "none" for empty utilization and otherwise derived
from the mean record count per occupied channel (<2 low, <5 moderate,
<10 high, else severe); per-channel counts {1:1, 6:1, 11:1} yield "low" and
{1:6, 6:6, 11:6} yield "high". -/
theorem channel_utilization_spec (nets : List Network) :
    (∀ p ∈ (analyze_channel_utilization nets).utilization,
        0 < p.2 ∧ p.2 = nets.countP (fun n => decide (keyChannel n = some p.1)))
    ∧ (∀ n ∈ nets, ∀ c, keyChannel n = some c →
        c ∈ (analyze_channel_utilization nets).utilization.map Prod.fst)
    ∧ (∀ q ∈ (analyze_channel_utilization nets).interference_map,
        q.2.network_count = nets.countP (fun n => decide (keyChannel n = some q.1))
        ∧ q.2.total_signal_power
            = ((nets.filter (fun n => decide (keyChannel n = some q.1))).map
                (fun n => |getSignal n|)).sum
        ∧ q.2.interference_score
            = min 100 (((q.2.network_count * 10 : Nat) : ℚ)
                + (q.2.total_signal_power : ℚ) / 10))
    ∧ ((analyze_channel_utilization nets).optimal_channels.map
        OptimalChannel.interference_score).Pairwise (· ≤ ·)
    ∧ (analyze_channel_utilization nets).optimal_channels.length ≤ 5
    ∧ (∀ o ∈ (analyze_channel_utilization nets).optimal_channels,
        o.recommendation = (if o.interference_score < 20 then "excellent"
          else if o.interference_score < 50 then "good" else "poor")
        ∧ ∃ q ∈ (analyze_channel_utilization nets).interference_map,
            q.1 = o.channel ∧ q.2.interference_score = o.interference_score
              ∧ q.2.network_count = o.network_count)
    ∧ (∀ o ∈ (analyze_channel_utilization nets).optimal_channels,
        ∀ q ∈ (analyze_channel_utilization nets).interference_map,
          q.1 ∉ (analyze_channel_utilization nets).optimal_channels.map
            OptimalChannel.channel →
          o.interference_score ≤ q.2.interference_score)
    ∧ ((analyze_channel_utilization nets).utilization = [] →
        (analyze_channel_utilization nets).congestion_level = "none")
    ∧ ((analyze_channel_utilization nets).utilization ≠ [] →
        (analyze_channel_utilization nets).congestion_level
          = (if ((((analyze_channel_utilization nets).utilization.map Prod.snd).map
                  (fun c : Nat => (c : ℚ))).sum
                / ((analyze_channel_utilization nets).utilization.length : ℚ)) < 2 then "low"
            else if ((((analyze_channel_utilization nets).utilization.map Prod.snd).map
                  (fun c : Nat => (c : ℚ))).sum
                / ((analyze_channel_utilization nets).utilization.length : ℚ)) < 5 then "moderate"
            else if ((((analyze_channel_utilization nets).utilization.map Prod.snd).map
                  (fun c : Nat => (c : ℚ))).sum
                / ((analyze_channel_utilization nets).utilization.length : ℚ)) < 10 then "high"
            else "severe"))
    ∧ (analyze_channel_utilization congestionNets1).congestion_level = "low"
    ∧ (analyze_channel_utilization congestionNets2).congestion_level = "high"
    ∧ (analyze_channel_utilization nets).optimal_channels.length
        = min 5 (analyze_channel_utilization nets).interference_map.length
    ∧ (analyze_channel_utilization nets).interference_map.length
        = (analyze_channel_utilization nets).utilization.length
    ∧ (∀ n ∈ nets, ∀ c, keyChannel n = some c →
        c ∈ (analyze_channel_utilization nets).interference_map.map Prod.fst)
    ∧ ((analyze_channel_utilization nets).utilization.map Prod.fst).Nodup := by
  obtain ⟨hnd, hcontents, hcover, hnonempty⟩ := groupByKey_spec keyChannel nets
  have hutil : (analyze_channel_utilization nets).utilization
      = (groupByKey keyChannel nets).map (fun p => (p.1, p.2.length)) := rfl
  have hintf : (analyze_channel_utilization nets).interference_map
      = (groupByKey keyChannel nets).map (fun p =>
          (p.1, { network_count := p.2.length
                  total_signal_power := (p.2.map (fun net => |getSignal net|)).sum
                  interference_score :=
                    min 100 (((p.2.length * 10 : Nat) : ℚ)
                      + (((p.2.map (fun net => |getSignal net|)).sum : ℤ) : ℚ) / 10)
                  : InterferenceEntry })) := rfl
  have hopt : (analyze_channel_utilization nets).optimal_channels
      = find_optimal_channels ((analyze_channel_utilization nets).interference_map) := rfl
  refine ⟨?_, ?_, ?_, ?_, ?_, ?_, ?_, ?_, ?_, ?_, ?_, ?_, ?_, ?_, ?_⟩
  · intro p hp
    rw [hutil] at hp
    obtain ⟨g, hg, hgp⟩ := List.mem_map.mp hp
    subst hgp
    constructor
    · show 0 < g.2.length
      have := hnonempty g hg
      cases hgl : g.2 with
      | nil => exact absurd hgl this
      | cons x t => simp [hgl]
    · show g.2.length = nets.countP (fun n => decide (keyChannel n = some g.1))
      rw [hcontents g hg, List.countP_eq_length_filter]
  · intro n hn c hc
    rw [hutil, List.map_map]
    have := hcover n hn c hc
    obtain ⟨g, hg, hgc⟩ := List.mem_map.mp this
    exact List.mem_map.mpr ⟨g, hg, hgc⟩
  · intro q hq
    rw [hintf] at hq
    obtain ⟨g, hg, hgq⟩ := List.mem_map.mp hq
    subst hgq
    refine ⟨?_, ?_, ?_⟩
    · show g.2.length = _
      rw [hcontents g hg, List.countP_eq_length_filter]
    · show (g.2.map (fun net => |getSignal net|)).sum = _
      rw [hcontents g hg]
    · rfl
  · rw [hopt]
    exact optimal_channels_sorted _
  · rw [hopt, find_optimal_channels]
    simp only [List.length_map]
    exact List.length_take_le _ _
  · intro o ho
    rw [hopt, find_optimal_channels] at ho
    obtain ⟨p, hp, hpo⟩ := List.mem_map.mp ho
    have hpm : p ∈ (analyze_channel_utilization nets).interference_map := by
      have h1 : p ∈ (analyze_channel_utilization nets).interference_map.mergeSort
          (fun a b => decide (a.2.interference_score ≤ b.2.interference_score)) :=
        List.mem_of_mem_take hp
      exact (List.mergeSort_perm _ _).mem_iff.mp h1
    subst hpo
    exact ⟨rfl, ⟨p, hpm, rfl, rfl, rfl⟩⟩
  · rw [hopt]
    exact optimal_channels_le_rest _
  · intro h
    show calculate_congestion_level (analyze_channel_utilization nets).utilization = _
    rw [calculate_congestion_level, if_pos h]
  · intro h
    show calculate_congestion_level (analyze_channel_utilization nets).utilization = _
    rw [calculate_congestion_level, if_neg h]
  · have hu : (groupByKey keyChannel congestionNets1).map (fun p => (p.1, p.2.length))
        = [(1,1),(6,1),(11,1)] := by decide
    show calculate_congestion_level ((groupByKey keyChannel congestionNets1).map
      (fun p => (p.1, p.2.length))) = _
    rw [hu, calculate_congestion_level, if_neg (by decide)]
    norm_num
  · have hu : (groupByKey keyChannel congestionNets2).map (fun p => (p.1, p.2.length))
        = [(1,6),(6,6),(11,6)] := by decide
    show calculate_congestion_level ((groupByKey keyChannel congestionNets2).map
      (fun p => (p.1, p.2.length))) = _
    rw [hu, calculate_congestion_level, if_neg (by decide)]
    norm_num
  · rw [hopt, find_optimal_channels]
    simp only [List.length_map, List.length_take]
    rw [(List.mergeSort_perm _ _).length_eq]
  · rw [hintf, hutil]
    simp only [List.length_map]
  · intro n hn c hc
    rw [hintf, List.map_map]
    obtain ⟨g, hg, hgc⟩ := List.mem_map.mp (hcover n hn c hc)
    exact List.mem_map.mpr ⟨g, hg, hgc⟩
  · have hkeys : (analyze_channel_utilization nets).utilization.map Prod.fst
        = (groupByKey keyChannel nets).map Prod.fst := by
      rw [hutil, List.map_map]
      rfl
    rw [hkeys]
    exact hnd

/-- C7 witness: in the first §8 example, channel 1 is occupied and therefore
appears among the utilization keys. -/
theorem channel_utilization_spec_witness :
    (1 : Nat) ∈ (analyze_channel_utilization congestionNets1).utilization.map Prod.fst :=
  (channel_utilization_spec congestionNets1).2.1 { channel := some 1 } (by decide) 1 (by decide)

/-- A client record of the scanner store (`WiFiScanner.process_probe_request`);
carried in the state only so that clearing it at scan start is represented. -/
structure ClientRecord where
  mac_address : String := ""
  vendor : String := ""
  signal_strength : Int := -100
  first_seen : Nat := 0
  last_seen : Nat := 0
  probed_ssids : List String := []
  associated_bssid : Option String := none
  deriving DecidableEq

/-- The mutable state of a `WiFiScanner` together with its `WiFiInterface`
(`monitor_mode` / `original_mode`).  The background capture thread itself is
concurrency outside the embedding; the claims concern only the state guards
of `start_monitor_scan` / `stop_scan`. -/
structure ScannerState where
  scanning : Bool := false
  networks : String → Option Network := fun _ => none
  clients : String → Option ClientRecord := fun _ => none
  packets_captured : Nat := 0
  scan_start_time : Option Nat := none
  current_channel : Nat := 1
  monitor_mode : Bool := false
  original_mode : Option String := none

/-- `WiFiInterface.enable_monitor_mode`: a no-op success when already in
monitor mode; otherwise records the original mode and asks the OS (the
external call's success is the `ok` input). -/
def enable_monitor_mode (st : ScannerState) (ok : Bool) : Bool × ScannerState :=
  if st.monitor_mode then (true, st)
  else
    let st1 := { st with original_mode := some "managed" }
    if ok then (true, { st1 with monitor_mode := true })
    else (false, st1)

/-- `WiFiInterface.disable_monitor_mode`. -/
def disable_monitor_mode (st : ScannerState) (ok : Bool) : Bool × ScannerState :=
  if !st.monitor_mode then (true, st)
  else if ok then (true, { st with monitor_mode := false })
  else (false, st)

/-- `WiFiScanner.start_monitor_scan` (thread start omitted: the worker loop is
the concurrent capture, not part of the guarded state transition). -/
def start_monitor_scan (st : ScannerState) (enable_ok : Bool) (now : Nat) :
    Bool × ScannerState :=
  if st.scanning then (false, st)
  else
    let res := enable_monitor_mode st enable_ok
    if !res.1 then (false, res.2)
    else
      (true, { res.2 with
               scanning := true
               scan_start_time := some now
               packets_captured := 0
               networks := fun _ => none
               clients := fun _ => none })

/-- `WiFiScanner.stop_scan`: early return (no state change, interface mode
untouched) when no scan is running; the Python method returns `None` in every
path. -/
def stop_scan (st : ScannerState) (disable_ok : Bool) : ScannerState :=
  if !st.scanning then st
  else
    let st1 := { st with scanning := false }
    (disable_monitor_mode st1 disable_ok).2

/-- The `/scan/stop` route of `wifi_api.py`: rejects with
`success=False` / HTTP 400 when no scan is in progress. -/
def api_stop_scan (st : ScannerState) (disable_ok : Bool) : (Bool × Nat) × ScannerState :=
  if !st.scanning then ((false, 400), st)
  else ((true, 200), stop_scan st disable_ok)

/-- A scanner that is not currently scanning (all fields at their initial
values). -/
def idleScanner : ScannerState := {}

/-- A scanner with a scan in progress. -/
def busyScanner : ScannerState :=
  { scanning := true, monitor_mode := true, packets_captured := 7
    scan_start_time := some 3, current_channel := 6 }

/-- C9 counterexample: stopping when no scan is running is indeed a no-op on
the state, but the API reports failure (`success = False`, HTTP 400), not
success. -/
theorem stop_scan_reports_failure_counterexample :
    (api_stop_scan idleScanner true).1.1 = false
      ∧ (api_stop_scan idleScanner true).1.2 = 400
      ∧ (api_stop_scan idleScanner true).2 = idleScanner :=
  ⟨rfl, rfl, rfl⟩

/-- C9 (amended): when a scan is already active, `start_monitor_scan` returns
failure and leaves the entire state (networks, clients, packet counter, start
time, channel, interface mode) exactly as it was; when no scan is running,
`stop_scan` is a no-op that changes no state and does not touch the interface
mode (the scanner method returns without error), while the HTTP stop route
reports failure ("No scan in progress", 400) rather than success. -/
theorem scan_state_guards (st : ScannerState) (ok : Bool) (now : Nat) :
    (st.scanning = true → start_monitor_scan st ok now = (false, st))
    ∧ (st.scanning = false → stop_scan st ok = st)
    ∧ (st.scanning = false → api_stop_scan st ok = ((false, 400), st)) := by
  refine ⟨?_, ?_, ?_⟩ <;> intro h <;>
    simp [start_monitor_scan, stop_scan, api_stop_scan, h]

/-- C9 witness: the guards at a concrete busy scanner and a concrete idle
scanner. -/
theorem scan_state_guards_witness :
    start_monitor_scan busyScanner true 5 = (false, busyScanner)
      ∧ stop_scan idleScanner true = idleScanner
      ∧ api_stop_scan idleScanner true = ((false, 400), idleScanner) :=
  ⟨(scan_state_guards busyScanner true 5).1 rfl,
   (scan_state_guards idleScanner true 0).2.1 rfl,
   (scan_state_guards idleScanner true 0).2.2 rfl⟩

theorem groupByKey_cons_none {α β : Type} [DecidableEq β] (key : α → Option β)
    (x : α) (l : List α) (h : key x = none) :
    groupByKey key (x :: l) = groupByKey key l := by
  simp only [groupByKey, List.foldl_cons, h]

theorem groupByKey_nil_of_all_none {α β : Type} [DecidableEq β] (key : α → Option β)
    (l : List α) (h : ∀ x ∈ l, key x = none) : groupByKey key l = [] := by
  induction l with
  | nil => rfl
  | cons x rest ih =>
    rw [groupByKey_cons_none key x rest (h x (List.mem_cons_self x rest))]
    exact ih (fun y hy => h y (List.mem_cons_of_mem x hy))

/-- C10 (implicit): records whose channel is missing or 0 are excluded from
channel-utilization analysis: prepending such a record changes nothing, every
grouped record carries the truthy channel of its bucket, a snapshot of only
falsy-channel records yields the empty analysis with congestion "none", and
the scanner's beacon handler indeed mints records with channel defaulted to 0
(hence falsy) when the beacon has no parsed channel. -/
theorem channel_zero_excluded (nets : List Network) (n : Network) (b : Beacon) :
    (keyChannel n = none →
        analyze_channel_utilization (n :: nets) = analyze_channel_utilization nets)
    ∧ (∀ p ∈ groupByKey keyChannel nets, ∀ m ∈ p.2, keyChannel m = some p.1)
    ∧ ((∀ m ∈ nets, keyChannel m = none) →
        analyze_channel_utilization nets
          = { utilization := [], interference_map := [], optimal_channels := [],
              congestion_level := "none" })
    ∧ (b.channel = none → b.bssid ≠ "" →
        ∀ r, networksAfter [b] b.bssid = some r →
          r.channel = some 0 ∧ keyChannel r = none) := by
  refine ⟨?_, ?_, ?_, ?_⟩
  · intro h
    unfold analyze_channel_utilization
    rw [groupByKey_cons_none keyChannel n nets h]
  · intro p hp m hm
    obtain ⟨-, hcontents, -, -⟩ := groupByKey_spec keyChannel nets
    rw [hcontents p hp] at hm
    have := List.of_mem_filter hm
    simpa using this
  · intro h
    unfold analyze_channel_utilization
    rw [groupByKey_nil_of_all_none keyChannel nets h]
    simp [find_optimal_channels, calculate_congestion_level]
  · intro hch hb r hr
    have hrec : networksAfter [b] b.bssid
        = some { bssid := b.bssid, ssid := b.ssid, channel := some 0
                 signal_strength := some (b.signal.getD (-100)), encryption := "Open"
                 vendor := get_vendor b.bssid, first_seen := b.ts, last_seen := b.ts
                 beacon_count := 1, clients := [] } := by
      show process_beacon_frame (fun _ => none) b b.bssid = _
      rw [process_beacon_frame, if_neg hb]
      simp [hch]
    rw [hrec] at hr
    obtain rfl : r = _ := (Option.some_injective _ hr).symm
    exact ⟨rfl, rfl⟩

/-- C10 witness: a channel-0 record yields the empty analysis, and a
channel-less beacon mints a channel-0 (falsy-key) record. -/
theorem channel_zero_excluded_witness :
    analyze_channel_utilization [{ channel := some 0 }]
      = { utilization := [], interference_map := [], optimal_channels := [],
          congestion_level := "none" }
    ∧ ({ bssid := "b", ssid := "", channel := some 0
         signal_strength := some (-100), encryption := "Open", vendor := "Unknown"
         first_seen := 0, last_seen := 0, beacon_count := 1,
         clients := [] } : Network).channel = some 0 :=
  ⟨(channel_zero_excluded [{ channel := some 0 }] {} {}).2.2.1 (by decide),
   ((channel_zero_excluded [] {} { bssid := "b" }).2.2.2 rfl (by decide)
     { bssid := "b", ssid := "", channel := some 0
       signal_strength := some (-100), encryption := "Open", vendor := "Unknown"
       first_seen := 0, last_seen := 0, beacon_count := 1,
       clients := [] } (by decide)).1⟩
